import Mathlib

/-!
hw12_c: a single-threaded static file server.

A shallow embedding of `src/server.c` (the epoll build) and `src/parse_args.c`.

* C strings and received bytes are `List Char`, one `Char` per byte.
* `off_t` values (`offset`, `file_size`) are `Int`; `size_t` values are `Nat`.
* The file system and the transport are explicit inputs: the result of each
  `stat` / `access` / `open` call is read from a `FileSystem`, the result of
  each `send` / `sendfile` call from a script of transport answers.
-/

namespace Hw12

/-! ## C library helpers -/

/-- The NUL byte that ends a C string. -/
def NUL : Char := Char.ofNat 0

/-- The bytes of a buffer seen as a C string: everything before the first NUL. -/
def c_str (buf : List Char) : List Char := buf.takeWhile (fun ch => ch != NUL)

/-- `isspace` of the C locale: space, and the bytes 9 .. 13 (tab, newline, vertical tab,
form feed, carriage return). -/
def isspace (ch : Char) : Bool := ch == ' ' || (decide (9 ≤ ch.toNat) && decide (ch.toNat ≤ 13))

/-- `strncmp(s, lit, strlen(lit)) == 0` for a literal without NUL: `s` begins with `lit`. -/
def starts_with : List Char → List Char → Bool
  | [], _ => true
  | _ :: _, [] => false
  | a :: lit, b :: s => a == b && starts_with lit s

/-- `strstr(hay, needle) != NULL`. -/
def strstr : List Char → List Char → Bool
  | [], needle => needle.isEmpty
  | ch :: hay, needle => starts_with needle (ch :: hay) || strstr hay needle

/-- Decimal digit for a value below ten. -/
def digit_char (d : Nat) : Char := Char.ofNat (48 + d)

/-- Decimal digits of `n`, least significant first; `fuel` bounds the number of digits. -/
def digits_rev : Nat → Nat → List Char
  | 0, _ => []
  | fuel + 1, n => if n < 10 then [digit_char n] else digit_char (n % 10) :: digits_rev fuel (n / 10)

/-- Decimal text of a natural number (`n + 1` digits of fuel are always enough). -/
def fmt_nat (n : Nat) : List Char := (digits_rev (n + 1) n).reverse

/-- The printf conversions `%d` and `%ld`: decimal text, with a minus sign when negative. -/
def fmt_d (v : Int) : List Char := if v < 0 then '-' :: fmt_nat v.natAbs else fmt_nat v.natAbs

/-- The call `snprintf(dest, size, ...)` on the already formatted `text`: the buffer receives at
most `size - 1` bytes, the return value is the full length of the text. -/
def snprintf (size : Nat) (text : List Char) : List Char × Nat := (text.take (size - 1), text.length)

/-! ## Connection state (`struct client`) -/

/-- The constant `sizeof(c->header)`. -/
def HEADER_SIZE : Nat := 256

/-- The constant `READ_BUF`. -/
def READ_BUF : Nat := 4096

/-- The constant `PATH_MAX` of `<limits.h>` (Linux value), the size of `full` in `prepare_file`. -/
def PATH_MAX : Nat := 4096

/-- Flags of `<sys/epoll.h>`. -/
def EPOLLIN : Nat := 1

/-- Writable flag. -/
def EPOLLOUT : Nat := 4

/-- Error flag. -/
def EPOLLERR : Nat := 8

/-- Hang-up flag. -/
def EPOLLHUP : Nat := 16

/-- Edge-triggered flag (`1u << 31`). -/
def EPOLLET : Nat := 2147483648

/-- The errno value `EACCES`. -/
def EACCES : Nat := 13

/-- The errno value `ENOENT`. -/
def ENOENT : Nat := 2

/-- The errno value `ENAMETOOLONG`. -/
def ENAMETOOLONG : Nat := 36

/-- The C `struct client`. `header` holds the text that `snprintf` left in the 256-byte buffer. -/
structure client where
  fd : Int
  file_fd : Int
  offset : Int
  file_size : Int
  header : List Char
  header_len : Nat
  header_sent : Nat
  state : Nat
  deriving DecidableEq

/-- The connection object built by `accept_clients`: `calloc` zeroes every field, then `fd`,
`file_fd = -1` and `state = 0` are stored. -/
def accept_client (fd : Int) : client :=
  { fd := fd, file_fd := -1, offset := 0, file_size := 0, header := [], header_len := 0,
    header_sent := 0, state := 0 }

/-- Text produced by the format of `send_simple_response`. -/
def simple_header (status : Int) (msg : List Char) : List Char :=
  "HTTP/1.1 ".toList ++ fmt_d status ++ " ".toList ++ msg ++
    "\r\nContent-Length: 0\r\nConnection: close\r\n\r\n".toList

/-- Text produced by the format of the 200 response in `prepare_file`. -/
def ok_header (size : Int) : List Char :=
  "HTTP/1.1 200 OK\r\nContent-Length: ".toList ++ fmt_d size ++
    "\r\nConnection: close\r\n\r\n".toList

/-- The function `send_simple_response` of `server.c`. -/
def send_simple_response (c : client) (status : Int) (msg : List Char) : client :=
  { c with
    file_fd := -1
    file_size := 0
    offset := 0
    header := (snprintf HEADER_SIZE (simple_header status msg)).1
    header_len := (snprintf HEADER_SIZE (simple_header status msg)).2
    header_sent := 0
    state := 1 }

/-! ## Path resolution -/

/-- The function `build_path`: `none` is the return value -1, `some full` is 0 with `full`
written to `dest`. -/
def build_path (size : Nat) (root url : List Char) : Option (List Char) :=
  let url1 := url.dropWhile (fun ch => ch == '/')
  if strstr url1 "..".toList then none
  else
    let full := root ++ "/".toList ++ url1
    if size ≤ full.length then none else some full

/-- What `stat` stores in `struct stat`, as far as `prepare_file` reads it. -/
structure Stat where
  is_reg : Bool
  st_size : Nat
  deriving DecidableEq

/-- The file system as seen through the three calls of `prepare_file`. An `error` carries errno.
`access_ok p` says that `access(p, R_OK)` returns 0. -/
structure FileSystem where
  stat : List Char → Except Nat Stat
  access_ok : List Char → Bool
  open_rdonly : List Char → Except Nat Nat

/-- The function `prepare_file` of `server.c`. -/
def prepare_file (fs : FileSystem) (c : client) (root url : List Char) : client :=
  match build_path PATH_MAX root url with
  | none => send_simple_response c 404 "Not Found".toList
  | some full =>
    match fs.stat full with
    | .error errno =>
      if errno = EACCES then send_simple_response c 403 "Forbidden".toList
      else send_simple_response c 404 "Not Found".toList
    | .ok st =>
      if !st.is_reg then send_simple_response c 404 "Not Found".toList
      else if !fs.access_ok full then send_simple_response c 403 "Forbidden".toList
      else
        match fs.open_rdonly full with
        | .error errno =>
          if errno = EACCES then send_simple_response c 403 "Forbidden".toList
          else send_simple_response c 404 "Not Found".toList
        | .ok fd =>
          { c with
            file_fd := (fd : Int)
            file_size := (st.st_size : Int)
            offset := 0
            header := (snprintf HEADER_SIZE (ok_header (st.st_size : Int))).1
            header_len := (snprintf HEADER_SIZE (ok_header (st.st_size : Int))).2
            header_sent := 0
            state := 1 }

/-! ## Read handler -/

/-- The call `sscanf(buf, "%15s %1023s", method, url)` on the C string `s`: `some (method, url)`
when it returns 2, `none` otherwise. Each `%s` skips white space and then takes bytes up to the
next white space or the field width. -/
def sscanf_request (s : List Char) : Option (List Char × List Char) :=
  let s1 := s.dropWhile isspace
  if s1.isEmpty then none
  else
    let method := (s1.takeWhile (fun ch => !isspace ch)).take 15
    let s2 := (s1.drop method.length).dropWhile isspace
    if s2.isEmpty then none
    else some (method, (s2.takeWhile (fun ch => !isspace ch)).take 1023)

/-- What `handle_read` leaves behind: the connection closed (`close_client`), or the connection
re-registered through `epoll_ctl(EPOLL_CTL_MOD)` with the interest `events`. -/
inductive ReadResult where
  | closed
  | armed (c : client) (events : Nat)
  deriving DecidableEq

/-- The function `handle_read` of `server.c`. `incoming` is what the socket delivers to `recv`:
`none` when `recv` fails, otherwise the pending bytes, of which at most `READ_BUF - 1` are
taken. -/
def handle_read (fs : FileSystem) (root : List Char) (c : client) (incoming : Option (List Char)) :
    ReadResult :=
  match incoming with
  | none => .closed
  | some data =>
    let buf := data.take (READ_BUF - 1)
    if buf.length ≤ 0 then .closed
    else
      match sscanf_request (c_str buf) with
      | none => .closed
      | some (method, url) =>
        if method ≠ "GET".toList then
          .armed (send_simple_response c 405 "Method Not Allowed".toList) (EPOLLOUT ||| EPOLLET)
        else
          .armed (prepare_file fs c root (url.takeWhile (fun ch => ch != '?')))
            (EPOLLOUT ||| EPOLLET)

/-! ## Write handler -/

/-- Answer of the transport to one `send` or `sendfile` call: `ok n` is the return value `n ≥ 0`,
`eagain` is -1 with errno `EAGAIN` / `EWOULDBLOCK`, `fail` is -1 with any other errno. -/
inductive IoResult where
  | ok (n : Nat)
  | eagain
  | fail
  deriving DecidableEq

/-- How one run of `handle_write` stands after the transport answers it was given:
returned on `EAGAIN` with the connection still registered, closed after an I/O error, closed on
the completion path, or still inside one of its loops with every answer used up. The `client`
is the connection state at that point. -/
inductive WriteResult where
  | would_block (c : client)
  | io_error (c : client)
  | completed (c : client)
  | running (c : client)
  deriving DecidableEq

/-- The connection state carried by a `WriteResult`. -/
def WriteResult.client : WriteResult → Hw12.client
  | .would_block c => c
  | .io_error c => c
  | .completed c => c
  | .running c => c

/-- The body loop of `handle_write` (`while (c->offset < c->file_size) sendfile(...)`) followed by
`close(c->file_fd); c->file_fd = -1; close_client`. Each element of the script answers one
`sendfile` call, given the requested count; `sendfile` itself advances `c->offset` by the bytes
it moved. `file` is the content behind `file_fd`, `wire` the bytes delivered so far. -/
def sendfile_loop (file : List Char) (c : client) (wire : List Char) :
    List (Nat → IoResult) → WriteResult × List Char
  | [] => if c.offset < c.file_size then (.running c, wire) else (.completed { c with file_fd := -1 }, wire)
  | t :: ts =>
    if c.offset < c.file_size then
      match t (c.file_size - c.offset).toNat with
      | .ok sent =>
        sendfile_loop file { c with offset := c.offset + (sent : Int) }
          (wire ++ (file.drop c.offset.toNat).take sent) ts
      | .eagain => (.would_block c, wire)
      | .fail => (.io_error c, wire)
    else (.completed { c with file_fd := -1 }, wire)

/-- The function `handle_write` of `server.c`: the header loop
(`while (c->header_sent < c->header_len) send(...)`), then the body loop when `file_fd >= 0`,
then `close_client`. Each element of the script answers one transport call, given the number of
bytes requested. -/
def handle_write (file : List Char) (c : client) (wire : List Char) :
    List (Nat → IoResult) → WriteResult × List Char
  | [] =>
    if c.header_sent < c.header_len then (.running c, wire)
    else if 0 ≤ c.file_fd then sendfile_loop file c wire []
    else (.completed c, wire)
  | t :: ts =>
    if c.header_sent < c.header_len then
      match t (c.header_len - c.header_sent) with
      | .ok n =>
        handle_write file { c with header_sent := c.header_sent + n }
          (wire ++ (c.header.drop c.header_sent).take n) ts
      | .eagain => (.would_block c, wire)
      | .fail => (.io_error c, wire)
    else if 0 ≤ c.file_fd then sendfile_loop file c wire (t :: ts)
    else (.completed c, wire)

/-- Successive writable events on one connection: `handle_write` is entered again after each
return on `EAGAIN`, with the transport answers of that invocation. -/
def serve_writes (file : List Char) (c : client) (wire : List Char) :
    List (List (Nat → IoResult)) → WriteResult × List Char
  | [] => (.would_block c, wire)
  | script :: later =>
    match handle_write file c wire script with
    | (.would_block c1, wire1) => serve_writes file c1 wire1 later
    | r => r

/-! ## Event dispatch -/

/-- The branch taken by `run_server` for an event whose tag is a connection. -/
inductive Handler where
  | read
  | write
  | close
  deriving DecidableEq

/-- The dispatch of `run_server` (epoll build) on the fired mask `events`:
`if (events & EPOLLIN) handle_read; else if (events & EPOLLOUT) handle_write; else close_client`. -/
def dispatch (events : Nat) : Handler :=
  if events &&& EPOLLIN ≠ 0 then .read
  else if events &&& EPOLLOUT ≠ 0 then .write
  else .close

/-! ## Command line (`parse_args.c`) -/

/-- The constant `LONG_MAX` (LP64). -/
def LONG_MAX : Int := 9223372036854775807

/-- The constant `LONG_MIN` (LP64). -/
def LONG_MIN : Int := -9223372036854775808

/-- The C `isdigit`. -/
def isdigit (ch : Char) : Bool := decide (48 ≤ ch.toNat) && decide (ch.toNat ≤ 57)

/-- Value of a run of decimal digits. -/
def digits_value (ds : List Char) : Nat := ds.foldl (fun acc ch => 10 * acc + (ch.toNat - 48)) 0

/-- The call `strtol(s, &end, 10)`: the value and the rest of the string at `end`. White space is
skipped, one sign is accepted, the digits are read and the value saturates at `LONG_MIN` /
`LONG_MAX`; without a digit the value is 0 and `end` is `s`. -/
def strtol (s : List Char) : Int × List Char :=
  let s1 := s.dropWhile isspace
  let neg := s1.head? == some '-'
  let s2 := if s1.head? == some '-' || s1.head? == some '+' then s1.drop 1 else s1
  let ds := s2.takeWhile isdigit
  if ds.isEmpty then (0, s)
  else
    let mag : Int := (digits_value ds : Int)
    (if neg then max LONG_MIN (-mag) else min LONG_MAX mag, s2.drop ds.length)

/-- The function `parse_port` of `parse_args.c`. -/
def parse_port (s : List Char) : Int :=
  if s.isEmpty || !(strtol s).2.isEmpty || decide ((strtol s).1 ≤ 0) || decide ((strtol s).1 > 65535)
  then -1
  else (strtol s).1

/-- The C `struct server_args`; `none` is the NULL pointer. -/
structure server_args where
  path : Option (List Char)
  addr : Option (List Char)
  port : Int
  show_help : Int
  deriving DecidableEq

/-- The loop of `parse_args` over `argv[i]`, `i ≥ 1`, and the check after it; the result is the
return value and the final `*args`. -/
def parse_args_loop : List (List Char) → server_args → Int × server_args
  | [], args =>
    if args.path.isNone || args.addr.isNone || args.port == 0 then (-1, { args with show_help := 1 })
    else (0, args)
  | a :: rest, args =>
    if starts_with "--path=".toList a then parse_args_loop rest { args with path := some (a.drop 7) }
    else if starts_with "--addr=".toList a then
      parse_args_loop rest { args with addr := some (a.drop 7) }
    else if starts_with "--port=".toList a then
      if parse_port (a.drop 7) < 0 then (-1, { args with show_help := 1 })
      else parse_args_loop rest { args with port := parse_port (a.drop 7) }
    else if a = "--help".toList then (0, { args with show_help := 1 })
    else (-1, { args with show_help := 1 })

/-- The function `parse_args` of `parse_args.c`; `argc` is the length of `argv`. -/
def parse_args (argv : List (List Char)) : Int × server_args :=
  parse_args_loop (argv.drop 1) { path := none, addr := none, port := 0, show_help := 0 }

/-! ## Vocabulary of the claims

The definitions of this section are not code of the repository: they name the conditions and
the properties that the theorems below state about it. -/

/-- What the operating system guarantees of `stat`: a path of `PATH_MAX` bytes or more is refused
with `ENAMETOOLONG`, and `st_size` is an `off_t`, below `2 ^ 63`. -/
def FileSystem.posix (fs : FileSystem) : Prop :=
  (∀ p, PATH_MAX ≤ p.length → fs.stat p = .error ENAMETOOLONG) ∧
    ∀ p st, fs.stat p = .ok st → st.st_size < 2 ^ 63

/-- The first white-space-delimited token of a buffer. -/
def first_token (s : List Char) : List Char :=
  (s.dropWhile isspace).takeWhile (fun ch => !isspace ch)

/-- What follows the first white-space-delimited token of a buffer. -/
def after_first_token (s : List Char) : List Char :=
  (s.dropWhile isspace).dropWhile (fun ch => !isspace ch)

/-- The target of a request: the second white-space-delimited token of the received bytes. -/
def request_target (s : List Char) : List Char :=
  ((after_first_token s).dropWhile isspace).takeWhile (fun ch => !isspace ch)

/-- What follows the target in the received bytes. -/
def after_target (s : List Char) : List Char :=
  ((after_first_token s).dropWhile isspace).dropWhile (fun ch => !isspace ch)

/-- A transport answer that never accepts more bytes than the call requested. -/
def within_request (t : Nat → IoResult) : Prop := ∀ len n, t len = .ok n → n ≤ len

/-- The connection invariant of the data model. -/
def conn_inv (c : client) : Prop :=
  c.header_sent ≤ c.header_len ∧ 0 ≤ c.offset ∧ c.offset ≤ c.file_size

/-- A connection in the Writing phase at a point where a write can resume: the header buffer holds
`header_len` bytes, the cursors are in range, the body is only started once the header is out,
`file` is the `file_size` bytes behind the handle (no bytes when there is no handle), and `wire`
is what has been delivered so far. -/
def resume_point (file : List Char) (c : client) (wire : List Char) : Prop :=
  c.header.length = c.header_len ∧ conn_inv c ∧ (file.length : Int) = c.file_size ∧
    (c.header_sent < c.header_len → c.offset = 0) ∧ (c.file_fd < 0 → c.file_size = 0) ∧
    wire = c.header.take c.header_sent ++ file.take c.offset.toNat

/-- What holds of a run of the write handler that started at a resume point with header `hdr`:
on the completion path the wire holds the whole header followed by the whole file and both
cursors are at their ends; otherwise the state reached is again a resume point. -/
def write_post (file hdr : List Char) (r : WriteResult × List Char) : Prop :=
  r.1.client.header = hdr ∧
    match r.1 with
    | .completed c1 =>
      r.2 = hdr ++ file ∧ c1.header_sent = hdr.length ∧ c1.offset = (file.length : Int)
    | _ => resume_point file r.1.client r.2

/-- Connection states that the event loop can produce: the object built on accept, any state left
by the read handler, and any state a run of the write handler is in after transport answers that
stay within the requested counts. -/
inductive Reachable : client → Prop where
  | accept (fd : Int) : Reachable (accept_client fd)
  | read (fs : FileSystem) (root : List Char) (c : client) (incoming : Option (List Char))
      (c1 : client) (events : Nat) :
      Reachable c → handle_read fs root c incoming = .armed c1 events → Reachable c1
  | write (file : List Char) (c : client) (wire : List Char) (script : List (Nat → IoResult)) :
      Reachable c → (∀ t ∈ script, within_request t) →
      Reachable (handle_write file c wire script).1.client

/-- The event mask with the chosen flags set. -/
def event_mask (readable writable err hup : Bool) : Nat :=
  (if readable then EPOLLIN else 0) ||| (if writable then EPOLLOUT else 0) |||
    (if err then EPOLLERR else 0) ||| (if hup then EPOLLHUP else 0)

/-- The value of the last argument that begins with `key`, if there is one. -/
def last_value (key : List Char) : List (List Char) → Option (List Char)
  | [] => none
  | a :: rest =>
    match last_value key rest with
    | some v => some v
    | none => if starts_with key a then some (a.drop key.length) else none

/-- An argument that `parse_args` does not know: none of the three options and not `--help`. -/
def unrecognised (a : List Char) : Prop :=
  starts_with "--path=".toList a = false ∧ starts_with "--addr=".toList a = false ∧
    starts_with "--port=".toList a = false ∧ a ≠ "--help".toList

/-- A `--port=` value that is empty, has characters left after the number, is not positive or
is above 65535. -/
def bad_port_value (v : List Char) : Prop :=
  v = [] ∨ (strtol v).2 ≠ [] ∨ (strtol v).1 ≤ 0 ∨ 65535 < (strtol v).1

/-! ## Concrete inputs -/

/-- A file system with the single regular readable file `/srv/index.html` of 5 bytes. -/
def fs_srv : FileSystem :=
  { stat := fun p =>
      if PATH_MAX ≤ p.length then .error ENAMETOOLONG
      else if p = "/srv/index.html".toList then .ok { is_reg := true, st_size := 5 }
      else .error ENOENT
    access_ok := fun p => p = "/srv/index.html".toList
    open_rdonly := fun p => if p = "/srv/index.html".toList then .ok 7 else .error ENOENT }

/-- A file system with a missing path, a directory, a file without read permission, a path that
`stat` may not search, and a file that `open` refuses. -/
def fs_mixed : FileSystem :=
  { stat := fun p =>
      if p = "/srv/dir".toList then .ok { is_reg := false, st_size := 4096 }
      else if p = "/srv/secret".toList then .ok { is_reg := true, st_size := 9 }
      else if p = "/srv/locked/a".toList then .error EACCES
      else if p = "/srv/race".toList then .ok { is_reg := true, st_size := 3 }
      else .error ENOENT
    access_ok := fun p => p = "/srv/race".toList
    open_rdonly := fun _ => .error EACCES }

/-- The connection after `GET /index.html` was read on `fs_srv` with root `/srv`. -/
def c_index : client :=
  { fd := 4, file_fd := 7, offset := 0, file_size := 5,
    header := "HTTP/1.1 200 OK\r\nContent-Length: 5\r\nConnection: close\r\n\r\n".toList,
    header_len := 57, header_sent := 0, state := 1 }

/-- A transport answer that accepts at most `k` bytes of what is requested. -/
def accept_up_to (k : Nat) : Nat → IoResult := fun len => .ok (min k len)

/-- A transport answer that accepts nothing. -/
def accept_none : Nat → IoResult := fun _ => .ok 0

/-- A transport answer reporting `EAGAIN`. -/
def busy : Nat → IoResult := fun _ => .eagain

/-- Three writable events with short writes: 10 header bytes then `EAGAIN`; the rest of the
header, 2 body bytes, then `EAGAIN`; the last 3 body bytes. -/
def scripts_short : List (List (Nat → IoResult)) :=
  [[accept_up_to 10, busy], [accept_up_to 100, accept_up_to 2, busy], [accept_up_to 3]]

/-- The connection `c_index` once its 57 header bytes are out. -/
def c_index_body : client := { c_index with header_sent := 57 }

/-- A complete command line that gives `--path=` twice. -/
def argv_full : List (List Char) :=
  ["prog".toList, "--path=/srv".toList, "--addr=127.0.0.1".toList, "--port=8080".toList,
    "--path=/www".toList]

/-- A command line whose port overflows `long`. -/
def argv_big_port : List (List Char) :=
  ["prog".toList, "--path=/srv".toList, "--port=99999999999999999999".toList,
    "--addr=127.0.0.1".toList]

/-- A command line with an argument that `parse_args` does not know. -/
def argv_unknown : List (List Char) :=
  ["prog".toList, "--path=/srv".toList, "--verbose".toList, "--help".toList]

/-- A command line without `--addr=`. -/
def argv_no_addr : List (List Char) :=
  ["prog".toList, "--path=/srv".toList, "--port=8080".toList]

/-- A command line that asks for help before a malformed port. -/
def argv_help_first : List (List Char) :=
  ["prog".toList, "--help".toList, "--port=abc".toList]

/-- A client object as `accept_clients` builds it for socket 4. -/
def c0 : client := accept_client 4

/-! ## Response texts -/

theorem header_404 :
    snprintf HEADER_SIZE (simple_header 404 "Not Found".toList) =
      ("HTTP/1.1 404 Not Found\r\nContent-Length: 0\r\nConnection: close\r\n\r\n".toList, 64) := by
  decide

theorem header_403 :
    snprintf HEADER_SIZE (simple_header 403 "Forbidden".toList) =
      ("HTTP/1.1 403 Forbidden\r\nContent-Length: 0\r\nConnection: close\r\n\r\n".toList, 64) := by
  decide

theorem header_405 :
    snprintf HEADER_SIZE (simple_header 405 "Method Not Allowed".toList) =
      ("HTTP/1.1 405 Method Not Allowed\r\nContent-Length: 0\r\nConnection: close\r\n\r\n".toList,
        73) := by
  decide

theorem send_404 (c : client) :
    send_simple_response c 404 "Not Found".toList =
      { c with
        file_fd := -1, file_size := 0, offset := 0,
        header := "HTTP/1.1 404 Not Found\r\nContent-Length: 0\r\nConnection: close\r\n\r\n".toList,
        header_len := 64, header_sent := 0, state := 1 } := by
  simp only [send_simple_response, header_404]

theorem send_403 (c : client) :
    send_simple_response c 403 "Forbidden".toList =
      { c with
        file_fd := -1, file_size := 0, offset := 0,
        header := "HTTP/1.1 403 Forbidden\r\nContent-Length: 0\r\nConnection: close\r\n\r\n".toList,
        header_len := 64, header_sent := 0, state := 1 } := by
  simp only [send_simple_response, header_403]

theorem send_405 (c : client) :
    send_simple_response c 405 "Method Not Allowed".toList =
      { c with
        file_fd := -1, file_size := 0, offset := 0,
        header :=
          "HTTP/1.1 405 Method Not Allowed\r\nContent-Length: 0\r\nConnection: close\r\n\r\n".toList,
        header_len := 73, header_sent := 0, state := 1 } := by
  simp only [send_simple_response, header_405]

/-! ## Request line -/

theorem sscanf_request_nil : sscanf_request (c_str []) = none := by decide

/-- When `sscanf` fills both fields, the buffer taken from `recv` is not empty. -/
theorem recv_nonempty_of_sscanf (data : List Char) (r : List Char × List Char)
    (h : sscanf_request (c_str (data.take (READ_BUF - 1))) = some r) :
    ¬ (data.take (READ_BUF - 1)).length ≤ 0 := by
  intro hle
  have hnil : data.take (READ_BUF - 1) = [] := List.length_eq_zero.mp (Nat.le_zero.mp hle)
  rw [hnil, sscanf_request_nil] at h
  exact Option.noConfusion h

/-- The method field of `sscanf` is the first token cut to 15 bytes. -/
theorem sscanf_method (s method url : List Char) (h : sscanf_request s = some (method, url)) :
    method = (first_token s).take 15 := by
  unfold sscanf_request at h
  simp only [] at h
  split at h
  · exact Option.noConfusion h
  · split at h
    · exact Option.noConfusion h
    · simp only [Option.some.injEq, Prod.mk.injEq] at h
      exact h.1.symm

theorem take_eq_of_short (t l : List Char) (n : Nat) (h : t.take n = l) (hl : l.length < n) :
    t = l := by
  have hlen : (t.take n).length = l.length := by rw [h]
  rw [List.length_take] at hlen
  have : t.length ≤ n := by omega
  rw [List.take_of_length_le this] at h
  exact h

/-- The method field is `GET` exactly when the first token is. -/
theorem method_get_iff (s method url : List Char) (h : sscanf_request s = some (method, url)) :
    method = "GET".toList ↔ first_token s = "GET".toList := by
  have hm := sscanf_method s method url h
  constructor
  · intro hg
    rw [hg] at hm
    exact take_eq_of_short _ _ 15 hm.symm (by decide)
  · intro hg
    rw [hm, hg]
    decide

/-! ## The request line in the read buffer -/

theorem takeWhile_stop (p : Char → Bool) (l1 l2 : List Char) (h1 : ∀ a ∈ l1, p a = true)
    (h2 : ∀ a, l2.head? = some a → p a = false) : (l1 ++ l2).takeWhile p = l1 := by
  rw [List.takeWhile_append_of_pos h1]
  cases l2 with
  | nil => simp
  | cons b t =>
    have hb : ¬ p b = true := by rw [h2 b rfl]; exact Bool.false_ne_true
    rw [List.takeWhile_cons_of_neg hb, List.append_nil]

theorem dropWhile_stop (p : Char → Bool) (l1 l2 : List Char) (h1 : ∀ a ∈ l1, p a = true)
    (h2 : ∀ a, l2.head? = some a → p a = false) : (l1 ++ l2).dropWhile p = l2 := by
  rw [List.dropWhile_append_of_pos h1]
  cases l2 with
  | nil => simp
  | cons b t =>
    have hb : ¬ p b = true := by rw [h2 b rfl]; exact Bool.false_ne_true
    rw [List.dropWhile_cons_of_neg hb]

theorem head_of_nonempty_append (l1 l2 : List Char) (h : l1 ≠ []) :
    (l1 ++ l2).head? = l1.head? := by
  cases l1 with
  | nil => exact absurd rfl h
  | cons b t => rfl

theorem head_mem (l : List Char) (a : Char) (h : l.head? = some a) : a ∈ l := by
  cases l with
  | nil => simp at h
  | cons b t =>
    simp only [List.head?_cons, Option.some.injEq] at h
    subst h
    exact List.mem_cons_self _ _

/-- The tokens of a buffer made of white space, a method, white space, a target and a rest that
is empty or starts with white space. -/
theorem tokens_of_parts (lead m sep tgt r : List Char)
    (hlead : ∀ a ∈ lead, isspace a = true) (hm : ∀ a ∈ m, isspace a = false) (hm0 : m ≠ [])
    (hsep : ∀ a ∈ sep, isspace a = true) (hsep0 : sep ≠ [])
    (htgt : ∀ a ∈ tgt, isspace a = false) (htgt0 : tgt ≠ [])
    (hr : ∀ a, r.head? = some a → isspace a = true) :
    (lead ++ (m ++ (sep ++ (tgt ++ r)))).dropWhile isspace = m ++ (sep ++ (tgt ++ r)) ∧
      first_token (lead ++ (m ++ (sep ++ (tgt ++ r)))) = m ∧
      after_first_token (lead ++ (m ++ (sep ++ (tgt ++ r)))) = sep ++ (tgt ++ r) ∧
      request_target (lead ++ (m ++ (sep ++ (tgt ++ r)))) = tgt ∧
      after_target (lead ++ (m ++ (sep ++ (tgt ++ r)))) = r := by
  have hmq : ∀ a ∈ m, (fun ch => !isspace ch) a = true := fun a ha => by simp [hm a ha]
  have htq : ∀ a ∈ tgt, (fun ch => !isspace ch) a = true := fun a ha => by simp [htgt a ha]
  have hmhead : ∀ a, (m ++ (sep ++ (tgt ++ r))).head? = some a → isspace a = false := by
    intro a ha
    rw [head_of_nonempty_append _ _ hm0] at ha
    exact hm a (head_mem _ _ ha)
  have hsephead : ∀ a, (sep ++ (tgt ++ r)).head? = some a →
      (fun ch => !isspace ch) a = false := by
    intro a ha
    rw [head_of_nonempty_append _ _ hsep0] at ha
    simp [hsep a (head_mem _ _ ha)]
  have htgthead : ∀ a, (tgt ++ r).head? = some a → isspace a = false := by
    intro a ha
    rw [head_of_nonempty_append _ _ htgt0] at ha
    exact htgt a (head_mem _ _ ha)
  have hrq : ∀ a, r.head? = some a → (fun ch => !isspace ch) a = false := by
    intro a ha
    simp [hr a ha]
  have h1 : (lead ++ (m ++ (sep ++ (tgt ++ r)))).dropWhile isspace = m ++ (sep ++ (tgt ++ r)) :=
    dropWhile_stop isspace _ _ hlead hmhead
  have h2 : (m ++ (sep ++ (tgt ++ r))).takeWhile (fun ch => !isspace ch) = m :=
    takeWhile_stop _ _ _ hmq hsephead
  have h2d : (m ++ (sep ++ (tgt ++ r))).dropWhile (fun ch => !isspace ch) = sep ++ (tgt ++ r) :=
    dropWhile_stop _ _ _ hmq hsephead
  have h3 : (sep ++ (tgt ++ r)).dropWhile isspace = tgt ++ r :=
    dropWhile_stop isspace _ _ hsep htgthead
  have h4 : (tgt ++ r).takeWhile (fun ch => !isspace ch) = tgt :=
    takeWhile_stop _ _ _ htq hrq
  have h4d : (tgt ++ r).dropWhile (fun ch => !isspace ch) = r :=
    dropWhile_stop _ _ _ htq hrq
  refine ⟨h1, ?_, ?_, ?_, ?_⟩
  · unfold first_token
    rw [h1, h2]
  · unfold after_first_token
    rw [h1, h2d]
  · unfold request_target after_first_token
    rw [h1, h2d, h3, h4]
  · unfold after_target after_first_token
    rw [h1, h2d, h3, h4d]

/-- The request-line scan on such a buffer: the method, and the first 1023 bytes of the
target. -/
theorem sscanf_request_cut (lead m sep tgt r : List Char)
    (hlead : ∀ a ∈ lead, isspace a = true) (hm : ∀ a ∈ m, isspace a = false) (hm0 : m ≠ [])
    (hm15 : m.length ≤ 15) (hsep : ∀ a ∈ sep, isspace a = true) (hsep0 : sep ≠ [])
    (htgt : ∀ a ∈ tgt, isspace a = false) (htgt0 : tgt ≠ [])
    (hr : ∀ a, r.head? = some a → isspace a = true) :
    sscanf_request (lead ++ (m ++ (sep ++ (tgt ++ r)))) = some (m, tgt.take 1023) := by
  obtain ⟨h1, h2, h3, h4, -⟩ := tokens_of_parts lead m sep tgt r hlead hm hm0 hsep hsep0 htgt
    htgt0 hr
  have h2a : (m ++ (sep ++ (tgt ++ r))).takeWhile (fun ch => !isspace ch) = m := by
    have := h2
    unfold first_token at this
    rw [h1] at this
    exact this
  have h4a : ((sep ++ (tgt ++ r)).dropWhile isspace).takeWhile (fun ch => !isspace ch) = tgt := by
    have := h4
    unfold request_target at this
    rw [h3] at this
    exact this
  have hne1 : (m ++ (sep ++ (tgt ++ r))).isEmpty = false := by
    cases m with
    | nil => exact absurd rfl hm0
    | cons _ _ => rfl
  have hne2 : ((sep ++ (tgt ++ r)).dropWhile isspace).isEmpty = false := by
    cases hq : (sep ++ (tgt ++ r)).dropWhile isspace with
    | nil =>
      rw [hq] at h4a
      exact absurd h4a.symm htgt0
    | cons _ _ => rfl
  unfold sscanf_request
  simp only [h1, h2a, hne1, List.take_of_length_le hm15, List.drop_left, hne2, h4a,
    Bool.false_eq_true, if_false]

/-- The request-line scan when the target is at most 1023 bytes long. -/
theorem sscanf_request_parts (lead m sep tgt r : List Char)
    (hlead : ∀ a ∈ lead, isspace a = true) (hm : ∀ a ∈ m, isspace a = false) (hm0 : m ≠ [])
    (hm15 : m.length ≤ 15) (hsep : ∀ a ∈ sep, isspace a = true) (hsep0 : sep ≠ [])
    (htgt : ∀ a ∈ tgt, isspace a = false) (htgt0 : tgt ≠ []) (ht : tgt.length ≤ 1023)
    (hr : ∀ a, r.head? = some a → isspace a = true) :
    sscanf_request (lead ++ (m ++ (sep ++ (tgt ++ r)))) = some (m, tgt) := by
  rw [sscanf_request_cut lead m sep tgt r hlead hm hm0 hm15 hsep hsep0 htgt htgt0 hr,
    List.take_of_length_le ht]

/-- C2, as stated, fails: the request `POST` followed by the blank line has a first token other
than `GET`, yet `sscanf` fills one field only and the connection is closed with no response. -/
theorem post_without_target_closed :
    first_token (c_str ("POST\r\n\r\n".toList.take (READ_BUF - 1))) ≠ "GET".toList ∧
      ∀ (fs : FileSystem) (root : List Char) (c : client),
        handle_read fs root c (some "POST\r\n\r\n".toList) = .closed := by
  refine ⟨by decide, fun fs root c => ?_⟩
  have h : sscanf_request (c_str ("POST\r\n\r\n".toList.take (READ_BUF - 1))) = none := by decide
  have hne : ¬ ("POST\r\n\r\n".toList.take (READ_BUF - 1)).length ≤ 0 := by decide
  simp only [handle_read, hne, if_false, h]

/-- C2, amended. A request from which `sscanf` does not extract both the method and the target
is closed without a response. For every request from which it extracts both and whose first
white-space-delimited token is not exactly `GET`, the read handler prepares exactly the 405
header with Content-Length 0, no file handle and an empty body, whatever the file system
holds. -/
theorem other_method_is_405 (fs : FileSystem) (root : List Char) (c : client)
    (data : List Char) :
    (sscanf_request (c_str (data.take (READ_BUF - 1))) = none →
        handle_read fs root c (some data) = .closed) ∧
      ∀ method url : List Char,
        sscanf_request (c_str (data.take (READ_BUF - 1))) = some (method, url) →
        first_token (c_str (data.take (READ_BUF - 1))) ≠ "GET".toList →
        handle_read fs root c (some data) =
          .armed
            { c with
              file_fd := -1, file_size := 0, offset := 0,
              header :=
                "HTTP/1.1 405 Method Not Allowed\r\nContent-Length: 0\r\nConnection: close\r\n\r\n".toList,
              header_len := 73, header_sent := 0, state := 1 }
            (EPOLLOUT ||| EPOLLET) := by
  constructor
  · intro hnone
    unfold handle_read
    simp only [hnone]
    split <;> rfl
  · intro method url hreq hmethod
    have hne := recv_nonempty_of_sscanf data _ hreq
    have hm : method ≠ "GET".toList := fun hg => hmethod ((method_get_iff _ _ _ hreq).mp hg)
    simp only [handle_read, hne, if_false, hreq, ne_eq, hm, not_false_eq_true, if_true, send_405]

/-- C2 amended, at the request `DELETE` with no target, which is closed, and at the request
`POST /index.html HTTP/1.1`, which is answered 405. -/
theorem other_method_is_405_witness :
    handle_read fs_srv "/srv".toList c0 (some "DELETE\r\n\r\n".toList) = .closed ∧
      handle_read fs_srv "/srv".toList c0 (some "POST /index.html HTTP/1.1\r\n\r\n".toList) =
        .armed
          { c0 with
            file_fd := -1, file_size := 0, offset := 0,
            header :=
              "HTTP/1.1 405 Method Not Allowed\r\nContent-Length: 0\r\nConnection: close\r\n\r\n".toList,
            header_len := 73, header_sent := 0, state := 1 }
          (EPOLLOUT ||| EPOLLET) :=
  ⟨(other_method_is_405 fs_srv "/srv".toList c0 "DELETE\r\n\r\n".toList).1 (by decide),
    (other_method_is_405 fs_srv "/srv".toList c0 "POST /index.html HTTP/1.1\r\n\r\n".toList).2
      "POST".toList "/index.html".toList (by decide) (by decide)⟩

/-! ## Decimal text -/

theorem digits_rev_length_le (fuel : Nat) :
    ∀ n k : Nat, 1 ≤ k → n < 10 ^ k → (digits_rev fuel n).length ≤ k := by
  induction fuel with
  | zero => intro n k _ _; simp [digits_rev]
  | succ fuel ih =>
    intro n k hk hn
    unfold digits_rev
    split
    · simpa using hk
    · rename_i h10
      have hk2 : 2 ≤ k := by
        by_contra hlt
        have hk1 : k = 1 := by omega
        rw [hk1] at hn
        omega
      have hdiv : n / 10 < 10 ^ (k - 1) := by
        have hpow : 10 ^ k = 10 ^ (k - 1) * 10 := by
          rw [← pow_succ]
          congr 1
          omega
        rw [hpow] at hn
        exact Nat.div_lt_of_lt_mul (by rwa [Nat.mul_comm] at hn)
      have := ih (n / 10) (k - 1) (by omega) hdiv
      simp only [List.length_cons]
      omega

theorem fmt_nat_length_le (n k : Nat) (hk : 1 ≤ k) (hn : n < 10 ^ k) : (fmt_nat n).length ≤ k := by
  unfold fmt_nat
  rw [List.length_reverse]
  exact digits_rev_length_le _ n k hk hn

theorem digit_char_value (d : Nat) (h : d < 10) : (digit_char d).toNat - 48 = d := by
  interval_cases d <;> decide

theorem digits_rev_value (fuel : Nat) :
    ∀ n : Nat, n < fuel →
      (digits_rev fuel n).foldr (fun ch acc => 10 * acc + (ch.toNat - 48)) 0 = n := by
  induction fuel with
  | zero => intro n hn; omega
  | succ fuel ih =>
    intro n hn
    unfold digits_rev
    split
    · rename_i h10
      simp only [List.foldr_cons, List.foldr_nil, Nat.mul_zero, Nat.zero_add]
      exact digit_char_value n h10
    · simp only [List.foldr_cons]
      rw [ih (n / 10) (by omega), digit_char_value (n % 10) (Nat.mod_lt _ (by decide))]
      omega

/-- The text of `fmt_nat` reads back as the number: it is its decimal representation. -/
theorem digits_value_fmt_nat (n : Nat) : digits_value (fmt_nat n) = n := by
  unfold digits_value fmt_nat
  rw [List.foldl_reverse]
  exact digits_rev_value (n + 1) n (Nat.lt_succ_self n)

theorem fmt_d_natCast (n : Nat) : fmt_d (n : Int) = fmt_nat n := by
  unfold fmt_d
  have h : ¬ ((n : Int) < 0) := by omega
  simp [h]

theorem ok_header_length (n : Nat) : (ok_header (n : Int)).length = 56 + (fmt_nat n).length := by
  unfold ok_header
  rw [fmt_d_natCast, List.length_append, List.length_append]
  have h1 : "HTTP/1.1 200 OK\r\nContent-Length: ".toList.length = 33 := by decide
  have h2 : "\r\nConnection: close\r\n\r\n".toList.length = 23 := by decide
  rw [h1, h2]
  omega

/-- The 200 header of a file whose size is an `off_t` is at most 75 bytes long. -/
theorem ok_header_length_le (n : Nat) (hn : n < 2 ^ 63) : (ok_header (n : Int)).length ≤ 75 := by
  rw [ok_header_length]
  have := fmt_nat_length_le n 19 (by decide) (lt_trans hn (by norm_num))
  omega

theorem snprintf_ok_header (n : Nat) (hn : n < 2 ^ 63) :
    snprintf HEADER_SIZE (ok_header (n : Int)) =
      ("HTTP/1.1 200 OK\r\nContent-Length: ".toList ++ fmt_nat n ++
        "\r\nConnection: close\r\n\r\n".toList, 56 + (fmt_nat n).length) := by
  have hlen := ok_header_length_le n hn
  unfold snprintf
  rw [List.take_of_length_le (by simp only [HEADER_SIZE]; omega), ok_header_length]
  simp only [ok_header, fmt_d_natCast]

/-! ## C3: an existing readable regular file is answered 200 -/

theorem fs_srv_posix : fs_srv.posix := by
  refine ⟨fun p hp => by simp [fs_srv, hp], fun p st h => ?_⟩
  simp only [fs_srv] at h
  split at h
  · exact Except.noConfusion h
  · split at h
    · cases h; decide
    · exact Except.noConfusion h

/-- When the target field that `sscanf` extracts names, under the root, an existing readable
regular file, the read handler prepares the 200 response for it. -/
theorem handle_read_existing_field (fs : FileSystem) (root : List Char) (c : client)
    (data url : List Char) (st : Stat) (fd : Nat) (hfs : fs.posix)
    (hreq : sscanf_request (c_str (data.take (READ_BUF - 1))) = some ("GET".toList, url))
    (hdd : strstr ((url.takeWhile (fun ch => ch != '?')).dropWhile (fun ch => ch == '/'))
      "..".toList = false)
    (hstat : fs.stat (root ++ "/".toList ++
      (url.takeWhile (fun ch => ch != '?')).dropWhile (fun ch => ch == '/')) = .ok st)
    (hreg : st.is_reg = true)
    (haccess : fs.access_ok (root ++ "/".toList ++
      (url.takeWhile (fun ch => ch != '?')).dropWhile (fun ch => ch == '/')) = true)
    (hopen : fs.open_rdonly (root ++ "/".toList ++
      (url.takeWhile (fun ch => ch != '?')).dropWhile (fun ch => ch == '/')) = .ok fd) :
    handle_read fs root c (some data) =
      .armed
        { c with
          file_fd := (fd : Int), file_size := (st.st_size : Int), offset := 0,
          header := "HTTP/1.1 200 OK\r\nContent-Length: ".toList ++ fmt_nat st.st_size ++
            "\r\nConnection: close\r\n\r\n".toList,
          header_len := 56 + (fmt_nat st.st_size).length, header_sent := 0, state := 1 }
        (EPOLLOUT ||| EPOLLET) := by
  have hne := recv_nonempty_of_sscanf data _ hreq
  have hfit : ¬ PATH_MAX ≤ (root ++ "/".toList ++
      (url.takeWhile (fun ch => ch != '?')).dropWhile (fun ch => ch == '/')).length := by
    intro hlong
    rw [hfs.1 _ hlong] at hstat
    exact Except.noConfusion hstat
  have hsize := hfs.2 _ _ hstat
  simp only [handle_read, hne, if_false, hreq, ne_eq, not_true_eq_false, prepare_file,
    build_path, hdd, Bool.false_eq_true, hfit, hstat, hreg, haccess, hopen, Bool.not_true,
    snprintf_ok_header _ hsize]

theorem c_str_of_no_nul (l : List Char) (h : ∀ a ∈ l, a ≠ NUL) : c_str l = l := by
  have := takeWhile_stop (fun ch => ch != NUL) l [] (fun a ha => by simpa using h a ha)
    (fun a ha => by simp at ha)
  rwa [List.append_nil] at this

/-- A NUL byte inside the target ends the buffer as a C string: the request below is a GET whose
target holds `..` after a NUL, and the read handler prepares the 200 response for
`/srv/index.html`. -/
theorem nul_in_target_is_200 :
    first_token ("GET /index.html".toList ++ NUL :: "/../x HTTP/1.1\r\n\r\n".toList) =
        "GET".toList ∧
      strstr (((request_target
        ("GET /index.html".toList ++ NUL :: "/../x HTTP/1.1\r\n\r\n".toList)).takeWhile
          (fun ch => ch != '?')).dropWhile (fun ch => ch == '/')) "..".toList = true ∧
      handle_read fs_srv "/srv".toList c0
          (some ("GET /index.html".toList ++ NUL :: "/../x HTTP/1.1\r\n\r\n".toList)) =
        .armed c_index (EPOLLOUT ||| EPOLLET) := by
  decide

/-- Only `READ_BUF - 1` bytes are received: after 4080 blanks, the request
`GET /index.html/../x HTTP/1.1` is a GET whose 16-byte target holds `..`, the buffer ends after
`/index.html`, and the read handler prepares the 200 response for `/srv/index.html`. -/
theorem target_past_buffer_is_200 :
    first_token (List.replicate 4080 ' ' ++
        ("GET".toList ++ (" ".toList ++ ("/index.html/../x".toList ++
          " HTTP/1.1\r\n\r\n".toList)))) = "GET".toList ∧
      request_target (List.replicate 4080 ' ' ++
        ("GET".toList ++ (" ".toList ++ ("/index.html/../x".toList ++
          " HTTP/1.1\r\n\r\n".toList)))) = "/index.html/../x".toList ∧
      handle_read fs_srv "/srv".toList c0
          (some (List.replicate 4080 ' ' ++
            ("GET".toList ++ (" ".toList ++ ("/index.html/../x".toList ++
              " HTTP/1.1\r\n\r\n".toList))))) =
        .armed c_index (EPOLLOUT ||| EPOLLET) := by
  have hlead : ∀ a ∈ List.replicate 4080 ' ', isspace a = true := by
    intro a ha
    rw [(List.mem_replicate.mp ha).2]
    decide
  have htok := tokens_of_parts (List.replicate 4080 ' ') "GET".toList " ".toList
    "/index.html/../x".toList " HTTP/1.1\r\n\r\n".toList hlead (by decide) (by decide)
    (by decide) (by decide) (by decide) (by decide) (by decide)
  refine ⟨htok.2.1, htok.2.2.2.1, ?_⟩
  have hbuf : (List.replicate 4080 ' ' ++
      ("GET".toList ++ (" ".toList ++ ("/index.html/../x".toList ++
        " HTTP/1.1\r\n\r\n".toList)))).take (READ_BUF - 1) =
      List.replicate 4080 ' ' ++ ("GET".toList ++ (" ".toList ++ ("/index.html".toList ++ []))) := by
    rw [List.take_append_eq_append_take,
      List.take_of_length_le (by rw [List.length_replicate]; decide), List.length_replicate]
    rfl
  have hnul : ∀ a ∈ List.replicate 4080 ' ' ++
      ("GET".toList ++ (" ".toList ++ ("/index.html".toList ++ []))), a ≠ NUL := by
    intro a ha
    rcases List.mem_append.mp ha with h | h
    · rw [(List.mem_replicate.mp h).2]
      decide
    · exact (by decide : ∀ a ∈ "GET".toList ++ (" ".toList ++ ("/index.html".toList ++ [])),
        a ≠ NUL) a h
  have hscan : sscanf_request (c_str ((List.replicate 4080 ' ' ++
      ("GET".toList ++ (" ".toList ++ ("/index.html/../x".toList ++
        " HTTP/1.1\r\n\r\n".toList)))).take (READ_BUF - 1))) =
      some ("GET".toList, "/index.html".toList) := by
    rw [hbuf, c_str_of_no_nul _ hnul]
    exact sscanf_request_parts (List.replicate 4080 ' ') "GET".toList " ".toList
      "/index.html".toList [] hlead (by decide) (by decide) (by decide) (by decide) (by decide)
      (by decide) (by decide) (by decide) (by decide)
  have h := handle_read_existing_field fs_srv "/srv".toList c0 _ "/index.html".toList
    { is_reg := true, st_size := 5 } 7 fs_srv_posix hscan (by decide) rfl rfl (by decide) rfl
  exact h.trans (by decide)

/-! ## C4: file-system failures map to 404 and 403 -/

/-- C4. For every joined path that `build_path` accepts: `stat` failing with an errno other than
`EACCES` (the path does not exist) and a path that is not a regular file give the 404 response;
`stat` failing with `EACCES`, `access(R_OK)` failing on a regular file and `open` failing with
`EACCES` give the 403 response; both responses are header-only, with `Content-Length: 0` and no
file handle. -/
theorem fs_errors_map_to_status (fs : FileSystem) (c : client) (root url full : List Char)
    (hpath : build_path PATH_MAX root url = some full) :
    (∀ errno, fs.stat full = .error errno → errno ≠ EACCES →
        prepare_file fs c root url = send_simple_response c 404 "Not Found".toList) ∧
      (∀ st, fs.stat full = .ok st → st.is_reg = false →
        prepare_file fs c root url = send_simple_response c 404 "Not Found".toList) ∧
      (fs.stat full = .error EACCES →
        prepare_file fs c root url = send_simple_response c 403 "Forbidden".toList) ∧
      (∀ st, fs.stat full = .ok st → st.is_reg = true → fs.access_ok full = false →
        prepare_file fs c root url = send_simple_response c 403 "Forbidden".toList) ∧
      (∀ st, fs.stat full = .ok st → st.is_reg = true → fs.access_ok full = true →
        fs.open_rdonly full = .error EACCES →
        prepare_file fs c root url = send_simple_response c 403 "Forbidden".toList) ∧
      send_simple_response c 404 "Not Found".toList =
        { c with
          file_fd := -1, file_size := 0, offset := 0,
          header :=
            "HTTP/1.1 404 Not Found\r\nContent-Length: 0\r\nConnection: close\r\n\r\n".toList,
          header_len := 64, header_sent := 0, state := 1 } ∧
      send_simple_response c 403 "Forbidden".toList =
        { c with
          file_fd := -1, file_size := 0, offset := 0,
          header :=
            "HTTP/1.1 403 Forbidden\r\nContent-Length: 0\r\nConnection: close\r\n\r\n".toList,
          header_len := 64, header_sent := 0, state := 1 } := by
  refine ⟨?_, ?_, ?_, ?_, ?_, send_404 c, send_403 c⟩
  · intro errno hstat hne
    simp only [prepare_file, hpath, hstat, hne, if_false]
  · intro st hstat hreg
    simp only [prepare_file, hpath, hstat, hreg, Bool.not_false, if_true]
  · intro hstat
    simp only [prepare_file, hpath, hstat, if_true]
  · intro st hstat hreg hacc
    simp only [prepare_file, hpath, hstat, hreg, hacc, Bool.not_true, Bool.not_false,
      Bool.false_eq_true, if_false, if_true]
  · intro st hstat hreg hacc hopen
    simp only [prepare_file, hpath, hstat, hreg, hacc, hopen, Bool.not_true,
      Bool.false_eq_true, if_false, if_true]

/-- C4 on `fs_mixed`: a missing path and a directory give 404; an unsearchable path, an unreadable
file and a refused open give 403. -/
theorem fs_errors_map_to_status_witness :
    prepare_file fs_mixed c0 "/srv".toList "/missing".toList =
        send_simple_response c0 404 "Not Found".toList ∧
      prepare_file fs_mixed c0 "/srv".toList "/dir".toList =
        send_simple_response c0 404 "Not Found".toList ∧
      prepare_file fs_mixed c0 "/srv".toList "/locked/a".toList =
        send_simple_response c0 403 "Forbidden".toList ∧
      prepare_file fs_mixed c0 "/srv".toList "/secret".toList =
        send_simple_response c0 403 "Forbidden".toList ∧
      prepare_file fs_mixed c0 "/srv".toList "/race".toList =
        send_simple_response c0 403 "Forbidden".toList :=
  ⟨(fs_errors_map_to_status fs_mixed c0 "/srv".toList "/missing".toList "/srv/missing".toList
      (by decide)).1 ENOENT rfl (by decide),
    (fs_errors_map_to_status fs_mixed c0 "/srv".toList "/dir".toList "/srv/dir".toList
      (by decide)).2.1 { is_reg := false, st_size := 4096 } rfl rfl,
    (fs_errors_map_to_status fs_mixed c0 "/srv".toList "/locked/a".toList "/srv/locked/a".toList
      (by decide)).2.2.1 rfl,
    (fs_errors_map_to_status fs_mixed c0 "/srv".toList "/secret".toList "/srv/secret".toList
      (by decide)).2.2.2.1 { is_reg := true, st_size := 9 } rfl rfl (by decide),
    (fs_errors_map_to_status fs_mixed c0 "/srv".toList "/race".toList "/srv/race".toList
      (by decide)).2.2.2.2.1 { is_reg := true, st_size := 3 } rfl rfl (by decide)
      rfl⟩

/-! ## Write handler: delivered bytes -/

theorem wire_complete (file hdr : List Char) (sent : Nat) (off : Int) (h1 : sent = hdr.length)
    (h2 : off = (file.length : Int)) : hdr.take sent ++ file.take off.toNat = hdr ++ file := by
  subst h1 h2
  simp

theorem take_body_step (file : List Char) (off : Int) (sent : Nat) (h0 : 0 ≤ off) :
    file.take off.toNat ++ (file.drop off.toNat).take sent = file.take (off + (sent : Int)).toNat := by
  have h : (off + (sent : Int)).toNat = off.toNat + sent := by omega
  rw [h, List.take_add]

theorem sendfile_loop_post (file : List Char) :
    ∀ (script : List (Nat → IoResult)) (c : client) (wire : List Char),
      (∀ t ∈ script, within_request t) → resume_point file c wire →
      c.header_len ≤ c.header_sent → write_post file c.header (sendfile_loop file c wire script) := by
  intro script
  induction script with
  | nil =>
    intro c wire _ hrp hdone
    obtain ⟨hlen, ⟨hs, h0, hle⟩, hfile, hphase, hfd, hwire⟩ := hrp
    unfold sendfile_loop
    split
    · exact ⟨rfl, hlen, ⟨hs, h0, hle⟩, hfile, hphase, hfd, hwire⟩
    · refine ⟨rfl, ?_, ?_, ?_⟩
      · show wire = c.header ++ file
        rw [hwire]
        exact wire_complete file c.header _ _ (by omega) (by omega)
      · show c.header_sent = c.header.length
        omega
      · show c.offset = (file.length : Int)
        omega
  | cons t ts ih =>
    intro c wire hscript hrp hdone
    have hrp0 := hrp
    obtain ⟨hlen, ⟨hs, h0, hle⟩, hfile, hphase, hfd, hwire⟩ := hrp
    unfold sendfile_loop
    split
    · rename_i hlt
      split
      · rename_i sent hans
        have hsent : sent ≤ (c.file_size - c.offset).toNat :=
          hscript t (List.mem_cons_self _ _) _ _ hans
        have hrp1 : resume_point file { c with offset := c.offset + (sent : Int) }
            (wire ++ (file.drop c.offset.toNat).take sent) := by
          refine ⟨hlen, ⟨hs, ?_, ?_⟩, hfile, ?_, hfd, ?_⟩
          · show 0 ≤ c.offset + (sent : Int)
            omega
          · show c.offset + (sent : Int) ≤ c.file_size
            omega
          · intro hlt1
            have : c.header_sent < c.header_len := hlt1
            omega
          · show wire ++ (file.drop c.offset.toNat).take sent =
              c.header.take c.header_sent ++ file.take (c.offset + (sent : Int)).toNat
            rw [hwire, List.append_assoc, take_body_step file c.offset sent h0]
        exact ih _ _ (fun u hu => hscript u (List.mem_cons_of_mem _ hu)) hrp1 hdone
      · exact ⟨rfl, hrp0⟩
      · exact ⟨rfl, hrp0⟩
    · refine ⟨rfl, ?_, ?_, ?_⟩
      · show wire = c.header ++ file
        rw [hwire]
        exact wire_complete file c.header _ _ (by omega) (by omega)
      · show c.header_sent = c.header.length
        omega
      · show c.offset = (file.length : Int)
        omega

theorem header_done_post (file : List Char) (script : List (Nat → IoResult)) (c : client)
    (wire : List Char) (hscript : ∀ t ∈ script, within_request t) (hrp : resume_point file c wire)
    (hdone : ¬ c.header_sent < c.header_len) :
    write_post file c.header
      (if 0 ≤ c.file_fd then sendfile_loop file c wire script else (.completed c, wire)) := by
  split
  · exact sendfile_loop_post file script c wire hscript hrp (by omega)
  · rename_i hneg
    obtain ⟨hlen, ⟨hs, h0, hle⟩, hfile, hphase, hfd, hwire⟩ := hrp
    have hzero : c.file_size = 0 := hfd (by omega)
    refine ⟨rfl, ?_, ?_, ?_⟩
    · show wire = c.header ++ file
      rw [hwire]
      exact wire_complete file c.header _ _ (by omega) (by omega)
    · show c.header_sent = c.header.length
      omega
    · show c.offset = (file.length : Int)
      omega

theorem handle_write_post (file : List Char) :
    ∀ (script : List (Nat → IoResult)) (c : client) (wire : List Char),
      (∀ t ∈ script, within_request t) → resume_point file c wire →
      write_post file c.header (handle_write file c wire script) := by
  intro script
  induction script with
  | nil =>
    intro c wire hscript hrp
    unfold handle_write
    split
    · exact ⟨rfl, hrp⟩
    · rename_i hdone
      exact header_done_post file [] c wire hscript hrp hdone
  | cons t ts ih =>
    intro c wire hscript hrp
    have hrp0 := hrp
    obtain ⟨hlen, ⟨hs, h0, hle⟩, hfile, hphase, hfd, hwire⟩ := hrp
    unfold handle_write
    split
    · rename_i hlt
      split
      · rename_i n hans
        have hn : n ≤ c.header_len - c.header_sent := hscript t (List.mem_cons_self _ _) _ _ hans
        have hoff : c.offset = 0 := hphase hlt
        have hrp1 : resume_point file { c with header_sent := c.header_sent + n }
            (wire ++ (c.header.drop c.header_sent).take n) := by
          refine ⟨hlen, ⟨?_, h0, hle⟩, hfile, fun _ => hoff, hfd, ?_⟩
          · show c.header_sent + n ≤ c.header_len
            omega
          · show wire ++ (c.header.drop c.header_sent).take n =
              c.header.take (c.header_sent + n) ++ file.take c.offset.toNat
            rw [hwire, hoff, List.take_add]
            simp
        exact ih _ _ (fun u hu => hscript u (List.mem_cons_of_mem _ hu)) hrp1
      · exact ⟨rfl, hrp0⟩
      · exact ⟨rfl, hrp0⟩
    · rename_i hdone
      exact header_done_post file (t :: ts) c wire hscript hrp0 hdone

theorem serve_writes_post (file : List Char) :
    ∀ (scripts : List (List (Nat → IoResult))) (c : client) (wire : List Char),
      (∀ script ∈ scripts, ∀ t ∈ script, within_request t) → resume_point file c wire →
      write_post file c.header (serve_writes file c wire scripts) := by
  intro scripts
  induction scripts with
  | nil =>
    intro c wire _ hrp
    exact ⟨rfl, hrp⟩
  | cons script later ih =>
    intro c wire hscripts hrp
    have hpost := handle_write_post file script c wire (hscripts script (List.mem_cons_self _ _)) hrp
    unfold serve_writes
    split
    · rename_i c1 wire1 heq
      rw [heq] at hpost
      obtain ⟨hhdr, hrp1⟩ := hpost
      have hhdr1 : c1.header = c.header := hhdr
      have := ih c1 wire1 (fun sc hsc => hscripts sc (List.mem_cons_of_mem _ hsc)) hrp1
      rw [hhdr1] at this
      exact this
    · exact hpost

/-- The bytes before the two cursors form an initial segment of header followed by file. -/
theorem cursor_bytes_are_initial (file hdr : List Char) (sent : Nat) (off : Int)
    (hs : sent ≤ hdr.length) (hphase : sent < hdr.length → off = 0) :
    hdr.take sent ++ file.take off.toNat <+: hdr ++ file := by
  by_cases h : sent < hdr.length
  · rw [hphase h]
    simp only [Int.toNat_zero, List.take_zero, List.append_nil]
    exact (List.take_prefix sent hdr).trans (List.prefix_append hdr file)
  · have hs1 : sent = hdr.length := by omega
    subst hs1
    rw [List.take_length]
    exact (List.prefix_append_right_inj hdr).mpr (List.take_prefix _ file)

/-! ## C5: resumption after short writes -/

/-- C5. From every resume point of a connection in the Writing phase, and for every sequence of
write-handler invocations whose transport answers accept between 0 and the number of bytes
requested, report `EAGAIN` or fail: the bytes delivered are exactly the header bytes before
`header_sent` followed by the file bytes before `offset`, hence an initial segment of header
followed by file contents; and when the handler closes the connection on the completion path
the bytes delivered are the complete header followed by the complete file. -/
theorem write_resumption (file : List Char) (c : client) (wire : List Char)
    (scripts : List (List (Nat → IoResult))) (hrp : resume_point file c wire)
    (hscripts : ∀ script ∈ scripts, ∀ t ∈ script, within_request t) :
    (serve_writes file c wire scripts).2 =
        c.header.take (serve_writes file c wire scripts).1.client.header_sent ++
          file.take (serve_writes file c wire scripts).1.client.offset.toNat ∧
      (serve_writes file c wire scripts).2 <+: c.header ++ file ∧
      ∀ c1, (serve_writes file c wire scripts).1 = .completed c1 →
        (serve_writes file c wire scripts).2 = c.header ++ file ∧
          c1.header_sent = c.header_len ∧ c1.offset = c.file_size := by
  have hpost := serve_writes_post file scripts c wire hscripts hrp
  have hlen0 : c.header.length = c.header_len := hrp.1
  have hfile0 : (file.length : Int) = c.file_size := hrp.2.2.1
  generalize serve_writes file c wire scripts = r at hpost
  obtain ⟨res, out⟩ := r
  obtain ⟨hhdr, hcase⟩ := hpost
  cases res with
  | completed c1 =>
    obtain ⟨hout, hs1, ho1⟩ := hcase
    have hout1 : out = c.header ++ file := hout
    refine ⟨?_, ?_, ?_⟩
    · show out = c.header.take c1.header_sent ++ file.take c1.offset.toNat
      rw [hout1, wire_complete file c.header _ _ hs1 ho1]
    · show out <+: c.header ++ file
      rw [hout1]
    · intro c2 h2
      cases h2
      exact ⟨hout1, by omega, by omega⟩
  | would_block c1 =>
    obtain ⟨hlen, ⟨hs, h0, hle⟩, hfile, hphase, hfd, hwire⟩ := hcase
    have hh : c1.header = c.header := hhdr
    have hwire1 : out = c.header.take c1.header_sent ++ file.take c1.offset.toNat := by
      rw [← hh]; exact hwire
    have hlen1 : c1.header.length = c1.header_len := hlen
    have hs1 : c1.header_sent ≤ c1.header_len := hs
    refine ⟨hwire1, ?_, fun c2 h2 => WriteResult.noConfusion h2⟩
    show out <+: c.header ++ file
    rw [hwire1]
    exact cursor_bytes_are_initial file c.header _ _ (by rw [← hh]; omega)
      (fun hlt => hphase (by rw [← hh] at hlt; show c1.header_sent < c1.header_len; omega))
  | io_error c1 =>
    obtain ⟨hlen, ⟨hs, h0, hle⟩, hfile, hphase, hfd, hwire⟩ := hcase
    have hh : c1.header = c.header := hhdr
    have hwire1 : out = c.header.take c1.header_sent ++ file.take c1.offset.toNat := by
      rw [← hh]; exact hwire
    have hlen1 : c1.header.length = c1.header_len := hlen
    have hs1 : c1.header_sent ≤ c1.header_len := hs
    refine ⟨hwire1, ?_, fun c2 h2 => WriteResult.noConfusion h2⟩
    show out <+: c.header ++ file
    rw [hwire1]
    exact cursor_bytes_are_initial file c.header _ _ (by rw [← hh]; omega)
      (fun hlt => hphase (by rw [← hh] at hlt; show c1.header_sent < c1.header_len; omega))
  | running c1 =>
    obtain ⟨hlen, ⟨hs, h0, hle⟩, hfile, hphase, hfd, hwire⟩ := hcase
    have hh : c1.header = c.header := hhdr
    have hwire1 : out = c.header.take c1.header_sent ++ file.take c1.offset.toNat := by
      rw [← hh]; exact hwire
    have hlen1 : c1.header.length = c1.header_len := hlen
    have hs1 : c1.header_sent ≤ c1.header_len := hs
    refine ⟨hwire1, ?_, fun c2 h2 => WriteResult.noConfusion h2⟩
    show out <+: c.header ++ file
    rw [hwire1]
    exact cursor_bytes_are_initial file c.header _ _ (by rw [← hh]; omega)
      (fun hlt => hphase (by rw [← hh] at hlt; show c1.header_sent < c1.header_len; omega))

theorem within_accept_up_to (k : Nat) : within_request (accept_up_to k) := by
  intro len n h
  simp only [accept_up_to, IoResult.ok.injEq] at h
  omega

theorem within_accept_none : within_request accept_none := by
  intro len n h
  simp only [accept_none, IoResult.ok.injEq] at h
  omega

theorem within_busy : within_request busy := by
  intro len n h
  exact IoResult.noConfusion h

theorem scripts_short_within : ∀ script ∈ scripts_short, ∀ t ∈ script, within_request t := by
  intro script hs t ht
  simp only [scripts_short, List.mem_cons, List.mem_singleton, List.not_mem_nil, or_false] at hs
  rcases hs with rfl | rfl | rfl <;>
    simp only [List.mem_cons, List.mem_singleton, List.not_mem_nil, or_false] at ht
  · rcases ht with rfl | rfl
    · exact within_accept_up_to _
    · exact within_busy
  · rcases ht with rfl | rfl | rfl
    · exact within_accept_up_to _
    · exact within_accept_up_to _
    · exact within_busy
  · rw [ht]
    exact within_accept_up_to _

theorem c_index_resume_point : resume_point "hello".toList c_index [] := by
  unfold resume_point conn_inv
  decide

/-- The three writable events of `scripts_short` deliver the header and `hello` and end on the
completion path. -/
theorem scripts_short_complete :
    serve_writes "hello".toList c_index [] scripts_short =
      (.completed { c_index with header_sent := 57, offset := 5, file_fd := -1 },
        "HTTP/1.1 200 OK\r\nContent-Length: 5\r\nConnection: close\r\n\r\nhello".toList) := by
  decide

/-- C5 on the 5-byte file `hello` behind `c_index`, served over three writable events with short
writes: what is delivered is an initial segment of header followed by `hello`, and it is all of it
if the run completes. -/
theorem write_resumption_witness :
    (serve_writes "hello".toList c_index [] scripts_short).2 =
        c_index.header.take (serve_writes "hello".toList c_index [] scripts_short).1.client.header_sent ++
          "hello".toList.take
            (serve_writes "hello".toList c_index [] scripts_short).1.client.offset.toNat ∧
      (serve_writes "hello".toList c_index [] scripts_short).2 <+: c_index.header ++ "hello".toList ∧
      ∀ c1, (serve_writes "hello".toList c_index [] scripts_short).1 = .completed c1 →
        (serve_writes "hello".toList c_index [] scripts_short).2 = c_index.header ++ "hello".toList ∧
          c1.header_sent = c_index.header_len ∧ c1.offset = c_index.file_size :=
  write_resumption "hello".toList c_index [] scripts_short c_index_resume_point scripts_short_within

/-! ## C6: the connection invariant -/

theorem conn_inv_accept (fd : Int) : conn_inv (accept_client fd) := by
  unfold conn_inv accept_client
  simp

theorem conn_inv_send_simple_response (c : client) (status : Int) (msg : List Char) :
    conn_inv (send_simple_response c status msg) := by
  unfold conn_inv send_simple_response
  simp

theorem conn_inv_prepare_file (fs : FileSystem) (c : client) (root url : List Char) :
    conn_inv (prepare_file fs c root url) := by
  unfold prepare_file
  split
  · exact conn_inv_send_simple_response _ _ _
  · split
    · split <;> exact conn_inv_send_simple_response _ _ _
    · split
      · exact conn_inv_send_simple_response _ _ _
      · split
        · exact conn_inv_send_simple_response _ _ _
        · split
          · split <;> exact conn_inv_send_simple_response _ _ _
          · unfold conn_inv
            simp

theorem conn_inv_handle_read (fs : FileSystem) (root : List Char) (c : client)
    (incoming : Option (List Char)) (c1 : client) (events : Nat)
    (h : handle_read fs root c incoming = .armed c1 events) : conn_inv c1 := by
  unfold handle_read at h
  split at h
  · exact ReadResult.noConfusion h
  · simp only [] at h
    split at h
    · exact ReadResult.noConfusion h
    · split at h
      · exact ReadResult.noConfusion h
      · split at h
        · cases h
          exact conn_inv_send_simple_response _ _ _
        · cases h
          exact conn_inv_prepare_file _ _ _ _

theorem conn_inv_sendfile_loop (file : List Char) :
    ∀ (script : List (Nat → IoResult)) (c : client) (wire : List Char),
      (∀ t ∈ script, within_request t) → conn_inv c →
      conn_inv (sendfile_loop file c wire script).1.client := by
  intro script
  induction script with
  | nil =>
    intro c wire _ hinv
    unfold sendfile_loop
    split <;> exact hinv
  | cons t ts ih =>
    intro c wire hscript hinv
    obtain ⟨hs, h0, hle⟩ := hinv
    unfold sendfile_loop
    split
    · split
      · rename_i sent hans
        have hsent : sent ≤ (c.file_size - c.offset).toNat :=
          hscript t (List.mem_cons_self _ _) _ _ hans
        refine ih _ _ (fun u hu => hscript u (List.mem_cons_of_mem _ hu)) ⟨hs, ?_, ?_⟩
        · show 0 ≤ c.offset + (sent : Int)
          omega
        · show c.offset + (sent : Int) ≤ c.file_size
          omega
      · exact ⟨hs, h0, hle⟩
      · exact ⟨hs, h0, hle⟩
    · exact ⟨hs, h0, hle⟩

theorem conn_inv_handle_write (file : List Char) :
    ∀ (script : List (Nat → IoResult)) (c : client) (wire : List Char),
      (∀ t ∈ script, within_request t) → conn_inv c →
      conn_inv (handle_write file c wire script).1.client := by
  intro script
  induction script with
  | nil =>
    intro c wire hscript hinv
    unfold handle_write
    split
    · exact hinv
    · split
      · exact conn_inv_sendfile_loop file [] c wire hscript hinv
      · exact hinv
  | cons t ts ih =>
    intro c wire hscript hinv
    unfold handle_write
    split
    · split
      · rename_i n hans
        have hn : n ≤ c.header_len - c.header_sent := hscript t (List.mem_cons_self _ _) _ _ hans
        obtain ⟨hs, h0, hle⟩ := hinv
        refine ih _ _ (fun u hu => hscript u (List.mem_cons_of_mem _ hu)) ⟨?_, h0, hle⟩
        show c.header_sent + n ≤ c.header_len
        omega
      · exact hinv
      · exact hinv
    · split
      · exact conn_inv_sendfile_loop file (t :: ts) c wire hscript hinv
      · exact hinv

/-- C6. The invariant `header_sent ≤ header_len` and `0 ≤ offset ≤ file_size` holds in every
reachable connection state: after accept, after every outcome of the read handler, and at every
point of the write handler under transport answers that accept at most the bytes requested. -/
theorem conn_inv_reachable (c : client) (h : Reachable c) : conn_inv c := by
  induction h with
  | accept fd => exact conn_inv_accept fd
  | read fs root c incoming c1 events _ hread _ =>
    exact conn_inv_handle_read fs root c incoming c1 events hread
  | write file c wire script _ hscript ih => exact conn_inv_handle_write file script c wire hscript ih

/-- C6 on the state reached by accept, reading `GET /index.html`, and a write handler run in
which the transport takes 10 bytes, then 100, then 2. -/
theorem conn_inv_reachable_witness :
    conn_inv (handle_write "hello".toList c_index []
      [accept_up_to 10, accept_up_to 100, accept_up_to 2]).1.client :=
  conn_inv_reachable _
    (Reachable.write "hello".toList c_index []
      [accept_up_to 10, accept_up_to 100, accept_up_to 2]
      (Reachable.read fs_srv "/srv".toList c0 (some "GET /index.html HTTP/1.1\r\n\r\n".toList)
        c_index (EPOLLOUT ||| EPOLLET) (Reachable.accept 4) (by decide))
      (fun t ht => by
        simp only [List.mem_cons, List.mem_singleton, List.not_mem_nil, or_false] at ht
        rcases ht with rfl | rfl | rfl <;> exact within_accept_up_to _))

/-! ## C9: the body loop does not leave when `sendfile` returns 0 -/

theorem sendfile_loop_spins (file : List Char) (c : client) (wire : List Char)
    (hoff : c.offset < c.file_size) (n : Nat) :
    sendfile_loop file c wire (List.replicate n accept_none) = (.running c, wire) := by
  induction n with
  | zero => simp [sendfile_loop, hoff]
  | succ n ih =>
    rw [List.replicate_succ]
    unfold sendfile_loop
    simp only [hoff, if_true, accept_none, Nat.cast_zero, add_zero, List.take_zero,
      List.append_nil]
    exact ih

/-- C9, what the code does: once the header is out and a file handle is present with
`offset < file_size`, a transport whose `sendfile` returns 0 on every call (the file ended before
`file_size` bytes, an answer within the requested count) keeps `handle_write` inside its body
loop: after any number `n` of transport calls it has neither returned nor closed, and the
cursors have not moved. -/
theorem handle_write_spins_at_eof (file : List Char) (c : client) (wire : List Char) (n : Nat)
    (hhdr : ¬ c.header_sent < c.header_len) (hfd : 0 ≤ c.file_fd)
    (hoff : c.offset < c.file_size) :
    within_request accept_none ∧
      handle_write file c wire (List.replicate n accept_none) = (.running c, wire) := by
  refine ⟨within_accept_none, ?_⟩
  have hloop := sendfile_loop_spins file c wire hoff n
  cases n with
  | zero =>
    simp only [List.replicate_zero] at hloop ⊢
    unfold handle_write
    simp only [hhdr, if_false, hfd, if_true, hloop]
  | succ n =>
    rw [List.replicate_succ] at hloop ⊢
    unfold handle_write
    simp only [hhdr, if_false, hfd, if_true, hloop]

/-- C9 at `/srv/index.html` truncated to 0 bytes after `stat` reported 5: with the header out,
1000 `sendfile` calls returning 0 leave `handle_write` running. -/
theorem handle_write_spins_at_eof_witness :
    within_request accept_none ∧
      handle_write [] c_index_body c_index.header (List.replicate 1000 accept_none) =
        (.running c_index_body, c_index.header) :=
  handle_write_spins_at_eof [] c_index_body c_index.header 1000 (by decide) (by decide)
    (by decide)

/-! ## C7: event dispatch -/

/-- C7, as stated, fails: a fired mask with the readable and the hang-up flag goes to the read
handler, and with a request pending the connection stays registered, now for write interest. -/
theorem hangup_with_readable_not_closed :
    dispatch (EPOLLIN ||| EPOLLHUP) = .read ∧
      handle_read fs_srv "/srv".toList c0 (some "GET /index.html HTTP/1.1\r\n\r\n".toList) =
        .armed c_index (EPOLLOUT ||| EPOLLET) := by
  decide

theorem and_epollin_ne_zero (events : Nat) : events &&& EPOLLIN ≠ 0 ↔ events.testBit 0 = true := by
  simp only [EPOLLIN, Nat.and_one_is_mod, Nat.testBit_zero, decide_eq_true_eq]
  omega

theorem and_epollout_ne_zero (events : Nat) :
    events &&& EPOLLOUT ≠ 0 ↔ events.testBit 2 = true := by
  have h4 : EPOLLOUT = 2 ^ 2 := by decide
  constructor
  · intro hne
    by_contra hbit
    apply hne
    apply Nat.eq_of_testBit_eq
    intro i
    rw [Nat.testBit_and, h4, Nat.testBit_two_pow, Nat.zero_testBit]
    by_cases hi : 2 = i
    · subst hi
      simp only [Bool.not_eq_true] at hbit
      simp [hbit]
    · simp [hi]
  · intro hbit hzero
    have hb : (events &&& EPOLLOUT).testBit 2 = true := by
      rw [Nat.testBit_and, h4, Nat.testBit_two_pow, hbit]
      simp
    rw [hzero, Nat.zero_testBit] at hb
    exact Bool.noConfusion hb

/-- C7, amended. Every fired mask on a connection goes to the read handler when its readable
bit (bit 0, `EPOLLIN`) is set, otherwise to the write handler when its writable bit (bit 2,
`EPOLLOUT`) is set, and the dispatch step itself closes the connection exactly when neither is
set; so for every combination of the readable, writable, error and hang-up flags the error and
hang-up flags change nothing unless they come alone. -/
theorem dispatch_by_flags (events : Nat) (readable writable err hup : Bool) :
    (dispatch events =
        if events.testBit 0 then .read else if events.testBit 2 then .write else .close) ∧
      dispatch (event_mask readable writable err hup) =
        if readable then .read else if writable then .write else .close := by
  constructor
  · unfold dispatch
    by_cases h0 : events.testBit 0 = true
    · rw [if_pos ((and_epollin_ne_zero events).mpr h0), if_pos h0]
    · rw [if_neg (fun h => h0 ((and_epollin_ne_zero events).mp h)), if_neg h0]
      by_cases h2 : events.testBit 2 = true
      · rw [if_pos ((and_epollout_ne_zero events).mpr h2), if_pos h2]
      · rw [if_neg (fun h => h2 ((and_epollout_ne_zero events).mp h)), if_neg h2]
  · cases readable <;> cases writable <;> cases err <;> cases hup <;> decide

/-! ## C8: the command line -/

theorem key_length (key : List Char) (h : key.length = 7) (a : List Char) :
    a.drop key.length = a.drop 7 := by rw [h]

theorem starts_with_third (x y z x1 y1 z1 : Char) (l l1 s : List Char)
    (h : starts_with (x :: y :: z :: l) s = true)
    (h1 : starts_with (x1 :: y1 :: z1 :: l1) s = true) : z = z1 := by
  match s with
  | [] => simp [starts_with] at h
  | [_] => simp [starts_with] at h
  | [_, _] => simp [starts_with] at h
  | a :: b :: d :: rest =>
    simp only [starts_with, Bool.and_eq_true, beq_iff_eq] at h h1
    rw [h.2.2.1, h1.2.2.1]

theorem path_not_addr (a : List Char) (h : starts_with "--path=".toList a = true) :
    starts_with "--addr=".toList a = false := by
  by_contra hc
  have h1 : starts_with "--addr=".toList a = true := by simpa using hc
  exact absurd (starts_with_third _ _ _ _ _ _ _ _ a h h1) (by decide)

theorem path_not_port (a : List Char) (h : starts_with "--path=".toList a = true) :
    starts_with "--port=".toList a = false := by
  match a with
  | [] => simp [starts_with] at h
  | [_] => simp [starts_with] at h
  | [_, _] => simp [starts_with] at h
  | [_, _, _] => simp [starts_with] at h
  | a :: b :: d :: e :: rest =>
    simp only [String.toList, starts_with, Bool.and_eq_true, beq_iff_eq] at h
    obtain ⟨-, -, -, h4, -⟩ := h
    subst h4
    simp [starts_with]

theorem addr_not_port (a : List Char) (h : starts_with "--addr=".toList a = true) :
    starts_with "--port=".toList a = false := by
  by_contra hc
  have h1 : starts_with "--port=".toList a = true := by simpa using hc
  exact absurd (starts_with_third _ _ _ _ _ _ _ _ a h h1) (by decide)

theorem help_no_option (a : List Char) (h : a = "--help".toList) :
    starts_with "--path=".toList a = false ∧ starts_with "--addr=".toList a = false ∧
      starts_with "--port=".toList a = false := by
  subst h
  decide

/-- A port accepted by `parse_port` lies in 1 .. 65535; the only other return value is -1. -/
theorem parse_port_range (s : List Char) :
    parse_port s = -1 ∨ (1 ≤ parse_port s ∧ parse_port s ≤ 65535) := by
  unfold parse_port
  split
  · exact Or.inl rfl
  · rename_i h
    simp only [Bool.or_eq_true, decide_eq_true_eq, not_or, not_le, not_lt] at h
    right
    omega

theorem parse_port_bad (v : List Char) (h : bad_port_value v) : parse_port v = -1 := by
  unfold parse_port
  have hc : (v.isEmpty || !(strtol v).2.isEmpty || decide ((strtol v).1 ≤ 0) ||
      decide ((strtol v).1 > 65535)) = true := by
    rcases h with h | h | h | h
    · simp [h]
    · have : (strtol v).2.isEmpty = false := by
        cases hq : (strtol v).2 with
        | nil => exact absurd hq h
        | cons _ _ => rfl
      simp [this]
    · simp [h]
    · simp [h]
  rw [if_pos hc]

theorem last_value_cons_none (key a : List Char) (rest : List (List Char))
    (h : last_value key (a :: rest) = none) :
    last_value key rest = none ∧ starts_with key a = false := by
  unfold last_value at h
  split at h
  · exact Option.noConfusion h
  · rename_i hrest
    split at h
    · exact Option.noConfusion h
    · rename_i hs
      exact ⟨hrest, by simpa using hs⟩

theorem last_value_cons_skip (key a : List Char) (rest : List (List Char))
    (h : starts_with key a = false) : last_value key (a :: rest) = last_value key rest := by
  conv_lhs => unfold last_value
  cases last_value key rest with
  | none => simp [h]
  | some v => rfl

theorem last_value_cons_hit (key a : List Char) (rest : List (List Char))
    (h : starts_with key a = true) :
    last_value key (a :: rest) =
      match last_value key rest with
      | some v => some v
      | none => some (a.drop key.length) := by
  conv_lhs => unfold last_value
  cases last_value key rest with
  | none => simp [h]
  | some v => rfl

/-- What a run of the loop that returns 0 without asking for help leaves in `*args`. -/
theorem parse_args_loop_success :
    ∀ (args : List (List Char)) (st a : server_args),
      parse_args_loop args st = (0, a) → a.show_help = 0 →
      (a.path = match last_value "--path=".toList args with
        | some v => some v
        | none => st.path) ∧
      (a.addr = match last_value "--addr=".toList args with
        | some v => some v
        | none => st.addr) ∧
      a.path.isSome = true ∧ a.addr.isSome = true ∧ a.port ≠ 0 ∧
      (a.port = st.port ∨ (1 ≤ a.port ∧ a.port ≤ 65535)) := by
  intro args
  induction args with
  | nil =>
    intro st a h hhelp
    unfold parse_args_loop at h
    split at h
    · simp at h
    · rename_i hc
      simp only [Prod.mk.injEq, true_and] at h
      subst h
      simp only [Bool.or_eq_true, Option.isNone_iff_eq_none, beq_iff_eq, not_or] at hc
      obtain ⟨⟨hp, ha⟩, hport⟩ := hc
      refine ⟨rfl, rfl, ?_, ?_, hport, Or.inl rfl⟩
      · exact Option.isSome_iff_ne_none.mpr hp
      · exact Option.isSome_iff_ne_none.mpr ha
  | cons x rest ih =>
    intro st a h hhelp
    unfold parse_args_loop at h
    split at h
    · rename_i hpath
      obtain ⟨h1, h2, h3, h4, h5, h6⟩ := ih _ a h hhelp
      refine ⟨?_, ?_, h3, h4, h5, h6⟩
      · rw [last_value_cons_hit _ _ _ hpath, h1]
        cases last_value "--path=".toList rest <;> rfl
      · rw [last_value_cons_skip _ _ _ (path_not_addr x hpath), h2]
    · rename_i hpath
      have hpath0 : starts_with "--path=".toList x = false := by simpa using hpath
      split at h
      · rename_i haddr
        obtain ⟨h1, h2, h3, h4, h5, h6⟩ := ih _ a h hhelp
        refine ⟨?_, ?_, h3, h4, h5, h6⟩
        · rw [last_value_cons_skip _ _ _ hpath0, h1]
        · rw [last_value_cons_hit _ _ _ haddr, h2]
          cases last_value "--addr=".toList rest <;> rfl
      · rename_i haddr
        have haddr0 : starts_with "--addr=".toList x = false := by simpa using haddr
        split at h
        · split at h
          · simp at h
          · rename_i hp
            obtain ⟨h1, h2, h3, h4, h5, h6⟩ := ih _ a h hhelp
            refine ⟨?_, ?_, h3, h4, h5, ?_⟩
            · rw [last_value_cons_skip _ _ _ hpath0, h1]
            · rw [last_value_cons_skip _ _ _ haddr0, h2]
            · rcases h6 with h6 | h6
              · right
                have h6 : a.port = parse_port (x.drop 7) := h6
                rcases parse_port_range (x.drop 7) with hr | hr
                · omega
                · omega
              · exact Or.inr h6
        · split at h
          · simp only [Prod.mk.injEq, true_and] at h
            subst h
            simp at hhelp
          · simp at h

/-- Arguments before the first `--help` either continue the loop or end it with -1. -/
theorem parse_args_loop_fail_of_suffix :
    ∀ (pre rest : List (List Char)) (st : server_args), "--help".toList ∉ pre →
      (∀ st1, (parse_args_loop rest st1).1 = -1 ∧ (parse_args_loop rest st1).2.show_help = 1) →
      (parse_args_loop (pre ++ rest) st).1 = -1 ∧
        (parse_args_loop (pre ++ rest) st).2.show_help = 1 := by
  intro pre
  induction pre with
  | nil =>
    intro rest st _ hrest
    exact hrest st
  | cons x pre ih =>
    intro rest st hno hrest
    have hno1 : "--help".toList ∉ pre := fun hm => hno (List.mem_cons_of_mem _ hm)
    have hx : x ≠ "--help".toList := fun he => hno (by rw [he]; exact List.mem_cons_self _ _)
    rw [List.cons_append]
    unfold parse_args_loop
    split
    · exact ih rest _ hno1 hrest
    · split
      · exact ih rest _ hno1 hrest
      · split
        · split
          · exact ⟨rfl, rfl⟩
          · exact ih rest _ hno1 hrest
        · exact ⟨rfl, rfl⟩

/-- Without `--help`, a run of the loop that lacks one of the three options ends with -1. -/
theorem parse_args_loop_missing :
    ∀ (args : List (List Char)) (st : server_args), "--help".toList ∉ args →
      ((st.path = none ∧ last_value "--path=".toList args = none) ∨
        (st.addr = none ∧ last_value "--addr=".toList args = none) ∨
        (st.port = 0 ∧ last_value "--port=".toList args = none)) →
      (parse_args_loop args st).1 = -1 ∧ (parse_args_loop args st).2.show_help = 1 := by
  intro args
  induction args with
  | nil =>
    intro st _ hmiss
    unfold parse_args_loop
    have hc : (st.path.isNone || st.addr.isNone || st.port == 0) = true := by
      rcases hmiss with h | h | h
      · simp [h.1]
      · simp [h.1]
      · simp [h.1]
    rw [if_pos hc]
    exact ⟨rfl, rfl⟩
  | cons x rest ih =>
    intro st hno hmiss
    have hno1 : "--help".toList ∉ rest := fun hm => hno (List.mem_cons_of_mem _ hm)
    have hx : x ≠ "--help".toList := fun he => hno (by rw [he]; exact List.mem_cons_self _ _)
    unfold parse_args_loop
    split
    · rename_i hpath
      refine ih _ hno1 ?_
      rcases hmiss with h | h | h
      · have := (last_value_cons_none _ _ _ h.2).2
        rw [hpath] at this
        exact Bool.noConfusion this
      · exact Or.inr (Or.inl ⟨h.1, (last_value_cons_none _ _ _ h.2).1⟩)
      · exact Or.inr (Or.inr ⟨h.1, (last_value_cons_none _ _ _ h.2).1⟩)
    · split
      · rename_i haddr
        refine ih _ hno1 ?_
        rcases hmiss with h | h | h
        · exact Or.inl ⟨h.1, (last_value_cons_none _ _ _ h.2).1⟩
        · have := (last_value_cons_none _ _ _ h.2).2
          rw [haddr] at this
          exact Bool.noConfusion this
        · exact Or.inr (Or.inr ⟨h.1, (last_value_cons_none _ _ _ h.2).1⟩)
      · split
        · rename_i hport
          split
          · exact ⟨rfl, rfl⟩
          · refine ih _ hno1 ?_
            rcases hmiss with h | h | h
            · exact Or.inl ⟨h.1, (last_value_cons_none _ _ _ h.2).1⟩
            · exact Or.inr (Or.inl ⟨h.1, (last_value_cons_none _ _ _ h.2).1⟩)
            · have := (last_value_cons_none _ _ _ h.2).2
              rw [hport] at this
              exact Bool.noConfusion this
        · exact ⟨rfl, rfl⟩

theorem parse_args_loop_bad_port (v : List Char) (post : List (List Char)) (st : server_args)
    (h : bad_port_value v) :
    (parse_args_loop (("--port=".toList ++ v) :: post) st).1 = -1 ∧
      (parse_args_loop (("--port=".toList ++ v) :: post) st).2.show_help = 1 := by
  have h1 : starts_with "--path=".toList ("--port=".toList ++ v) = false := rfl
  have h2 : starts_with "--addr=".toList ("--port=".toList ++ v) = false := rfl
  have h3 : starts_with "--port=".toList ("--port=".toList ++ v) = true := rfl
  have h4 : ("--port=".toList ++ v).drop 7 = v := rfl
  unfold parse_args_loop
  rw [if_neg (by rw [h1]; exact Bool.false_ne_true),
    if_neg (by rw [h2]; exact Bool.false_ne_true), if_pos h3, h4,
    if_pos (by rw [parse_port_bad v h]; decide)]
  exact ⟨rfl, rfl⟩

theorem parse_args_loop_unrecognised (a : List Char) (post : List (List Char)) (st : server_args)
    (h : unrecognised a) :
    (parse_args_loop (a :: post) st).1 = -1 ∧ (parse_args_loop (a :: post) st).2.show_help = 1 := by
  obtain ⟨h1, h2, h3, h4⟩ := h
  unfold parse_args_loop
  rw [if_neg (by rw [h1]; exact Bool.false_ne_true),
    if_neg (by rw [h2]; exact Bool.false_ne_true),
    if_neg (by rw [h3]; exact Bool.false_ne_true), if_neg h4]
  exact ⟨rfl, rfl⟩

/-- C8, as stated, fails: with `--help` first, a malformed `--port=` value and missing path, addr
and port still give the return value 0 (with `show_help = 1`), not -1. -/
theorem help_before_bad_port_returns_zero :
    bad_port_value "abc".toList ∧ last_value "--path=".toList (argv_help_first.drop 1) = none ∧
      parse_args argv_help_first = (0, { path := none, addr := none, port := 0, show_help := 1 }) := by
  refine ⟨Or.inr (Or.inl (by decide)), by decide, by decide⟩

/-- C8, amended. For every argument vector: if `parse_args` returns 0 with `show_help = 0` then
path and addr are set, each to the value of the last `--path=` / `--addr=` argument, and
`1 ≤ port ≤ 65535`; and `parse_args` returns -1 with `show_help = 1` whenever, with no `--help`
before it, a `--port=` value is empty, has characters left after the number, is not positive or
is above 65535, whenever an unrecognised argument comes with no `--help` before it, and whenever
there is no `--help` at all and path, addr or port is missing. -/
theorem parse_args_validated (argv : List (List Char)) :
    (∀ a, parse_args argv = (0, a) → a.show_help = 0 →
        a.path.isSome = true ∧ a.path = last_value "--path=".toList (argv.drop 1) ∧
          a.addr.isSome = true ∧ a.addr = last_value "--addr=".toList (argv.drop 1) ∧
          1 ≤ a.port ∧ a.port ≤ 65535) ∧
      (∀ pre v post, argv.drop 1 = pre ++ ("--port=".toList ++ v) :: post →
        "--help".toList ∉ pre → bad_port_value v →
        (parse_args argv).1 = -1 ∧ (parse_args argv).2.show_help = 1) ∧
      (∀ pre a post, argv.drop 1 = pre ++ a :: post → "--help".toList ∉ pre → unrecognised a →
        (parse_args argv).1 = -1 ∧ (parse_args argv).2.show_help = 1) ∧
      ("--help".toList ∉ argv.drop 1 →
        (last_value "--path=".toList (argv.drop 1) = none ∨
          last_value "--addr=".toList (argv.drop 1) = none ∨
          last_value "--port=".toList (argv.drop 1) = none) →
        (parse_args argv).1 = -1 ∧ (parse_args argv).2.show_help = 1) := by
  refine ⟨?_, ?_, ?_, ?_⟩
  · intro a h hhelp
    obtain ⟨h1, h2, h3, h4, h5, h6⟩ := parse_args_loop_success _ _ a h hhelp
    refine ⟨h3, ?_, h4, ?_, ?_⟩
    · cases hl : last_value "--path=".toList (argv.drop 1) with
      | some v =>
        rw [hl] at h1
        exact h1
      | none =>
        rw [hl] at h1
        have hnone : a.path = none := h1
        rw [hnone] at h3
        exact absurd h3 (by simp)
    · cases hl : last_value "--addr=".toList (argv.drop 1) with
      | some v =>
        rw [hl] at h2
        exact h2
      | none =>
        rw [hl] at h2
        have hnone : a.addr = none := h2
        rw [hnone] at h4
        exact absurd h4 (by simp)
    · rcases h6 with h6 | h6
      · exact absurd h6 h5
      · exact h6
  · intro pre v post hargv hno hbad
    unfold parse_args
    rw [hargv]
    exact parse_args_loop_fail_of_suffix pre _ _ hno
      (fun st1 => parse_args_loop_bad_port v post st1 hbad)
  · intro pre a post hargv hno hun
    unfold parse_args
    rw [hargv]
    exact parse_args_loop_fail_of_suffix pre _ _ hno
      (fun st1 => parse_args_loop_unrecognised a post st1 hun)
  · intro hno hmiss
    unfold parse_args
    refine parse_args_loop_missing _ _ hno ?_
    rcases hmiss with h | h | h
    · exact Or.inl ⟨rfl, h⟩
    · exact Or.inr (Or.inl ⟨rfl, h⟩)
    · exact Or.inr (Or.inr ⟨rfl, h⟩)

/-- C8 amended, on four command lines: a complete one with two `--path=` arguments, one whose
port overflows `long`, one with an unknown argument before `--help`, and one without `--addr=`. -/
theorem parse_args_validated_witness :
    ((parse_args argv_full).2.path = some "/www".toList ∧
        (parse_args argv_full).2.addr = some "127.0.0.1".toList ∧
        1 ≤ (parse_args argv_full).2.port ∧ (parse_args argv_full).2.port ≤ 65535) ∧
      ((parse_args argv_big_port).1 = -1 ∧ (parse_args argv_big_port).2.show_help = 1) ∧
      ((parse_args argv_unknown).1 = -1 ∧ (parse_args argv_unknown).2.show_help = 1) ∧
      ((parse_args argv_no_addr).1 = -1 ∧ (parse_args argv_no_addr).2.show_help = 1) :=
  ⟨by
      have h := (parse_args_validated argv_full).1 (parse_args argv_full).2 (by decide) (by decide)
      exact ⟨h.2.1.trans (by decide), h.2.2.2.1.trans (by decide), h.2.2.2.2.1, h.2.2.2.2.2⟩,
    (parse_args_validated argv_big_port).2.1 ["--path=/srv".toList]
      "99999999999999999999".toList ["--addr=127.0.0.1".toList] (by decide) (by decide)
      (Or.inr (Or.inr (Or.inr (by decide)))),
    (parse_args_validated argv_unknown).2.2.1 ["--path=/srv".toList] "--verbose".toList
      ["--help".toList] (by decide) (by decide) ⟨by decide, by decide, by decide, by decide⟩,
    (parse_args_validated argv_no_addr).2.2.2 (by decide) (Or.inr (Or.inl (by decide)))⟩

/-! ## C10: the header fits its buffer -/

theorem simple_response_fits (c : client) :
    ((send_simple_response c 404 "Not Found".toList).header_len < HEADER_SIZE ∧
        (send_simple_response c 404 "Not Found".toList).header.length =
          (send_simple_response c 404 "Not Found".toList).header_len) ∧
      ((send_simple_response c 403 "Forbidden".toList).header_len < HEADER_SIZE ∧
        (send_simple_response c 403 "Forbidden".toList).header.length =
          (send_simple_response c 403 "Forbidden".toList).header_len) ∧
      ((send_simple_response c 405 "Method Not Allowed".toList).header_len < HEADER_SIZE ∧
        (send_simple_response c 405 "Method Not Allowed".toList).header.length =
          (send_simple_response c 405 "Method Not Allowed".toList).header_len) := by
  show ((snprintf HEADER_SIZE (simple_header 404 "Not Found".toList)).2 < HEADER_SIZE ∧
        (snprintf HEADER_SIZE (simple_header 404 "Not Found".toList)).1.length =
          (snprintf HEADER_SIZE (simple_header 404 "Not Found".toList)).2) ∧
      ((snprintf HEADER_SIZE (simple_header 403 "Forbidden".toList)).2 < HEADER_SIZE ∧
        (snprintf HEADER_SIZE (simple_header 403 "Forbidden".toList)).1.length =
          (snprintf HEADER_SIZE (simple_header 403 "Forbidden".toList)).2) ∧
      ((snprintf HEADER_SIZE (simple_header 405 "Method Not Allowed".toList)).2 < HEADER_SIZE ∧
        (snprintf HEADER_SIZE (simple_header 405 "Method Not Allowed".toList)).1.length =
          (snprintf HEADER_SIZE (simple_header 405 "Method Not Allowed".toList)).2)
  decide

theorem simple_response_whole (c : client) :
    ((send_simple_response c 404 "Not Found".toList).header_len < HEADER_SIZE ∧
        (send_simple_response c 404 "Not Found".toList).header =
          simple_header 404 "Not Found".toList) ∧
      ((send_simple_response c 403 "Forbidden".toList).header_len < HEADER_SIZE ∧
        (send_simple_response c 403 "Forbidden".toList).header =
          simple_header 403 "Forbidden".toList) ∧
      ((send_simple_response c 405 "Method Not Allowed".toList).header_len < HEADER_SIZE ∧
        (send_simple_response c 405 "Method Not Allowed".toList).header =
          simple_header 405 "Method Not Allowed".toList) := by
  show ((snprintf HEADER_SIZE (simple_header 404 "Not Found".toList)).2 < HEADER_SIZE ∧
        (snprintf HEADER_SIZE (simple_header 404 "Not Found".toList)).1 =
          simple_header 404 "Not Found".toList) ∧
      ((snprintf HEADER_SIZE (simple_header 403 "Forbidden".toList)).2 < HEADER_SIZE ∧
        (snprintf HEADER_SIZE (simple_header 403 "Forbidden".toList)).1 =
          simple_header 403 "Forbidden".toList) ∧
      ((snprintf HEADER_SIZE (simple_header 405 "Method Not Allowed".toList)).2 < HEADER_SIZE ∧
        (snprintf HEADER_SIZE (simple_header 405 "Method Not Allowed".toList)).1 =
          simple_header 405 "Method Not Allowed".toList)
  decide

theorem prepare_file_header_fits (fs : FileSystem) (c : client) (root url : List Char)
    (hfs : fs.posix) :
    (prepare_file fs c root url).header_len < HEADER_SIZE ∧
      (prepare_file fs c root url).header.length = (prepare_file fs c root url).header_len := by
  have h404 := (simple_response_fits c).1
  have h403 := (simple_response_fits c).2.1
  unfold prepare_file
  split
  · exact h404
  · split
    · split
      · exact h403
      · exact h404
    · rename_i full st hstat
      split
      · exact h404
      · split
        · exact h403
        · split
          · split
            · exact h403
            · exact h404
          · have hsize := hfs.2 _ _ hstat
            simp only [snprintf_ok_header _ hsize]
            have hlen := fmt_nat_length_le st.st_size 19 (by decide) (lt_trans hsize (by norm_num))
            refine ⟨by simp only [HEADER_SIZE]; omega, ?_⟩
            simp only [List.length_append]
            have h1 : "HTTP/1.1 200 OK\r\nContent-Length: ".toList.length = 33 := by decide
            have h2 : "\r\nConnection: close\r\n\r\n".toList.length = 23 := by decide
            rw [h1, h2]
            omega

theorem handle_read_header_fits (fs : FileSystem) (root : List Char) (c : client)
    (incoming : Option (List Char)) (c1 : client) (events : Nat) (hfs : fs.posix)
    (h : handle_read fs root c incoming = .armed c1 events) :
    c1.header_len < HEADER_SIZE ∧ c1.header.length = c1.header_len := by
  unfold handle_read at h
  split at h
  · exact ReadResult.noConfusion h
  · simp only [] at h
    split at h
    · exact ReadResult.noConfusion h
    · split at h
      · exact ReadResult.noConfusion h
      · split at h
        · cases h
          exact (simple_response_fits c).2.2
        · cases h
          exact prepare_file_header_fits fs c _ _ hfs

theorem prepare_file_fresh (fs : FileSystem) (c : client) (root url : List Char) :
    (prepare_file fs c root url).header_sent = 0 ∧ (prepare_file fs c root url).offset = 0 ∧
      ((prepare_file fs c root url).file_fd < 0 → (prepare_file fs c root url).file_size = 0) := by
  unfold prepare_file
  split
  · exact ⟨rfl, rfl, fun _ => rfl⟩
  · split
    · split <;> exact ⟨rfl, rfl, fun _ => rfl⟩
    · split
      · exact ⟨rfl, rfl, fun _ => rfl⟩
      · split
        · exact ⟨rfl, rfl, fun _ => rfl⟩
        · split
          · split <;> exact ⟨rfl, rfl, fun _ => rfl⟩
          · rename_i fd _
            refine ⟨rfl, rfl, fun hneg => ?_⟩
            have hneg1 : (fd : Int) < 0 := hneg
            omega

/-- Every state that the read handler prepares is a resume point with nothing delivered yet, for
the `file_size` bytes behind its handle. -/
theorem handle_read_resume_point (fs : FileSystem) (root : List Char) (c : client)
    (incoming : Option (List Char)) (c1 : client) (events : Nat) (file : List Char)
    (hfs : fs.posix) (h : handle_read fs root c incoming = .armed c1 events)
    (hfile : (file.length : Int) = c1.file_size) : resume_point file c1 [] := by
  have hfit := handle_read_header_fits fs root c incoming c1 events hfs h
  have hinv := conn_inv_handle_read fs root c incoming c1 events h
  have hfresh : c1.header_sent = 0 ∧ c1.offset = 0 ∧ (c1.file_fd < 0 → c1.file_size = 0) := by
    unfold handle_read at h
    split at h
    · exact ReadResult.noConfusion h
    · simp only [] at h
      split at h
      · exact ReadResult.noConfusion h
      · split at h
        · exact ReadResult.noConfusion h
        · split at h
          · cases h
            exact ⟨rfl, rfl, fun _ => rfl⟩
          · cases h
            exact prepare_file_fresh fs c _ _
  obtain ⟨hs0, ho0, hfd⟩ := hfresh
  refine ⟨hfit.2, hinv, hfile, fun _ => ho0, hfd, ?_⟩
  rw [hs0, ho0]
  simp

/-- C10. The serialized header always fits the 256-byte buffer: for the 404, 403 and 405
responses and for the 200 response of every file size below `2 ^ 63`, the length that `snprintf`
returns is below 256 and the buffer holds the whole text; and whatever the read handler stores
in `header_len` is below 256 and is the length of the text in the buffer, so the bytes from
`header_sent` to `header_len` lie inside it. -/
theorem header_fits_buffer (c : client) :
    ((send_simple_response c 404 "Not Found".toList).header_len < HEADER_SIZE ∧
        (send_simple_response c 404 "Not Found".toList).header =
          simple_header 404 "Not Found".toList) ∧
      ((send_simple_response c 403 "Forbidden".toList).header_len < HEADER_SIZE ∧
        (send_simple_response c 403 "Forbidden".toList).header =
          simple_header 403 "Forbidden".toList) ∧
      ((send_simple_response c 405 "Method Not Allowed".toList).header_len < HEADER_SIZE ∧
        (send_simple_response c 405 "Method Not Allowed".toList).header =
          simple_header 405 "Method Not Allowed".toList) ∧
      (∀ s : Nat, s < 2 ^ 63 →
        (snprintf HEADER_SIZE (ok_header (s : Int))).2 < HEADER_SIZE ∧
          (snprintf HEADER_SIZE (ok_header (s : Int))).1 = ok_header (s : Int)) ∧
      (∀ (fs : FileSystem) (root : List Char) (incoming : Option (List Char)) (c1 : client)
          (events : Nat), fs.posix → handle_read fs root c incoming = .armed c1 events →
        c1.header_len < HEADER_SIZE ∧ c1.header.length = c1.header_len) := by
  refine ⟨(simple_response_whole c).1, (simple_response_whole c).2.1,
    (simple_response_whole c).2.2, ?_, ?_⟩
  · intro s hs
    have hlen := ok_header_length_le s hs
    unfold snprintf
    refine ⟨by simp only [HEADER_SIZE]; omega, ?_⟩
    exact List.take_of_length_le (by simp only [HEADER_SIZE]; omega)
  · intro fs root incoming c1 events hfs h
    exact handle_read_header_fits fs root c incoming c1 events hfs h

/-- C10 at the largest file size, `2 ^ 63 - 1`, and at the state the read handler prepares for
`GET /index.html` on `fs_srv`. -/
theorem header_fits_buffer_witness :
    ((snprintf HEADER_SIZE (ok_header ((9223372036854775807 : Nat) : Int))).2 < HEADER_SIZE ∧
        (snprintf HEADER_SIZE (ok_header ((9223372036854775807 : Nat) : Int))).1 =
          ok_header ((9223372036854775807 : Nat) : Int)) ∧
      (c_index.header_len < HEADER_SIZE ∧ c_index.header.length = c_index.header_len) :=
  ⟨(header_fits_buffer c0).2.2.2.1 9223372036854775807 (by norm_num),
    (header_fits_buffer c0).2.2.2.2 fs_srv "/srv".toList
      (some "GET /index.html HTTP/1.1\r\n\r\n".toList) c_index (EPOLLOUT ||| EPOLLET)
      fs_srv_posix
      (by decide)⟩

end Hw12
